import Mathlib

/-!
# hive-go `rpc` codec: a shallow embedding of `rpc/codec.go`

The file embeds the three layers of `rpc/codec.go`:

* the frame transport (`writeFrame`, `readFrame`),
* the argument marshaler (`writeArg`, `readArg`, `convertArg`),
* the two envelope codecs (`mpClientCodec`, `mpServerCodec`).

Modelling conventions.

* A byte is a `Fin 256`; a stream (`io.ReadWriteCloser`) is a byte buffer in
  the manner of `bytes.Buffer`: `Write` appends, `ReadFull` consumes from the
  front, `Close` is counted.
* Go's dynamically typed values (`interface{}` / `reflect.Value`) are the
  inductive type `Value`, Go's types are `GoType`.  The universe holds
  booleans, the ten sized and unsized integer types, strings,
  `map[interface{}]interface{}`, `interface{}`, pointers and struct types.
  Floating point, complex numbers, slices, arrays, channels and functions are
  outside the universe.  `int` and `uint` are 64 bits wide.
* A run-time panic (a failed type assertion, a reflective call on the zero
  `reflect.Value`, ...) is an explicit outcome, `Exec.panic`.
* A Go function that mutates its receiver or an argument and returns an
  `error` returns the final state together with `Option String` (`none` is the
  `nil` error, `some msg` an error whose message is `msg`).
* The msgpack serializer, `unicode.IsUpper` and the integer type of the `Seq`
  header field are not part of `codec.go`; they are the fields of `Env`.
-/

namespace rpc

/-! ## Bytes and streams -/

/-- One byte. -/
abbrev Byte := Fin 256

/-- Model of an `io.ReadWriteCloser` backed by a byte buffer: `buf` holds the bytes
written and not yet read, `closes` counts the calls of `Close`, `closeErr` is what the
stream's `Close` returns. -/
structure Conn where
  buf : List Byte
  closes : Nat
  closeErr : Option String

/-- Go's `w.Write(p)` on a buffer: appends, never fails. -/
def Conn.Write (w : Conn) (p : List Byte) : Conn × Option String :=
  ({ w with buf := w.buf ++ p }, none)

/-- Go's `io.ReadFull(r, buff)` with `len(buff) = n`: either exactly `n` bytes are consumed and
returned, or everything left is consumed and the error is `EOF` (nothing was read) or
`unexpected EOF` (some bytes, fewer than `n`, were read).  With `n = 0` nothing is read. -/
def Conn.ReadFull (r : Conn) (n : Nat) : Conn × Except String (List Byte) :=
  if n ≤ r.buf.length then
    ({ r with buf := r.buf.drop n }, .ok (r.buf.take n))
  else
    ({ r with buf := [] }, .error (if r.buf.isEmpty then "EOF" else "unexpected EOF"))

/-- The call `c.rwc.Close()`. -/
def Conn.Close (s : Conn) : Conn × Option String :=
  ({ s with closes := s.closes + 1 }, s.closeErr)

/-- Go's `binary.LittleEndian.PutUint32(lenBuf[:], x)` for `x < 2^32`. -/
def putUint32 (x : Nat) : List Byte :=
  [⟨x % 256, Nat.mod_lt _ (by decide)⟩,
   ⟨x / 256 % 256, Nat.mod_lt _ (by decide)⟩,
   ⟨x / 65536 % 256, Nat.mod_lt _ (by decide)⟩,
   ⟨x / 16777216 % 256, Nat.mod_lt _ (by decide)⟩]

/-- Go's `binary.LittleEndian.Uint32(buff)`; the code only calls it on four bytes. -/
def getUint32 (b : List Byte) : Nat :=
  match b with
  | [b0, b1, b2, b3] => b0.val + b1.val * 256 + b2.val * 65536 + b3.val * 16777216
  | _ => 0

/-- Go's `uint32(l)`: conversion of a Go `int` length to 32 bits. -/
def toUint32 (l : Nat) : Nat := l % 2 ^ 32

/-- Function `writeFrame(w, buf)`: a 4-byte little-endian length, then the payload. -/
def writeFrame (w : Conn) (buf : List Byte) : Conn × Option String :=
  let l := buf.length
  let lenBuf := putUint32 (toUint32 l)
  match w.Write lenBuf with
  | (w1, some err) => (w1, some err)
  | (w1, none) => w1.Write buf

/-- Function `readFrame(r)`: reads 4 bytes, then as many bytes as they announce. -/
def readFrame (r : Conn) : Conn × Except String (List Byte) :=
  match r.ReadFull 4 with
  | (r1, .error err) => (r1, .error err)
  | (r1, .ok buff) =>
    let l := getUint32 buff
    match r1.ReadFull l with
    | (r2, .error err) => (r2, .error err)
    | (r2, .ok buff) => (r2, .ok buff)

/-- An empty, open loopback buffer. -/
def emptyConn : Conn := { buf := [], closes := 0, closeErr := none }

/-! ## Go types and values -/

/-- The integer kinds of Go (`uintptr` apart). -/
inductive IntKind
  | int | int8 | int16 | int32 | int64 | uint | uint8 | uint16 | uint32 | uint64
  deriving DecidableEq, Repr

/-- Width in bits; `int` and `uint` are 64 bits wide. -/
def IntKind.bits : IntKind → Nat
  | .int8 | .uint8 => 8
  | .int16 | .uint16 => 16
  | .int32 | .uint32 => 32
  | .int | .int64 | .uint | .uint64 => 64

/-- Whether the kind is signed. -/
def IntKind.signed : IntKind → Bool
  | .int | .int8 | .int16 | .int32 | .int64 => true
  | _ => false

/-- Whether kind `k` can hold the integer `n`. -/
def IntKind.inRange (k : IntKind) (n : Int) : Bool :=
  if k.signed then decide (-(2 ^ (k.bits - 1) : Int) ≤ n ∧ n < 2 ^ (k.bits - 1))
  else decide (0 ≤ n ∧ n < 2 ^ k.bits)

/-- Go's integer conversion to kind `k`: reduction modulo `2 ^ bits`, read in two's
complement when `k` is signed. -/
def wrap (k : IntKind) (n : Int) : Int :=
  if k.signed then (n + 2 ^ (k.bits - 1)) % 2 ^ k.bits - 2 ^ (k.bits - 1)
  else n % 2 ^ k.bits

/-- Go types of the modelled universe.  A struct type carries its name (empty for a
struct literal type) and its fields, in declaration order. -/
inductive GoType
  | bool
  | int (k : IntKind)
  | string
  | iface
  | imap
  | ptr (t : GoType)
  | struct (name : String) (fields : List (String × GoType))

mutual
/-- Type identity (`t1 == t2` on `reflect.Type`). -/
def GoType.beq : GoType → GoType → Bool
  | .bool, .bool => true
  | .int a, .int b => a == b
  | .string, .string => true
  | .iface, .iface => true
  | .imap, .imap => true
  | .ptr a, .ptr b => GoType.beq a b
  | .struct n fs, .struct m gs => n == m && GoType.beqFields fs gs
  | _, _ => false
/-- Identity of field lists: same names and identical types, in the same order. -/
def GoType.beqFields : List (String × GoType) → List (String × GoType) → Bool
  | [], [] => true
  | (n, t) :: r, (m, u) :: s => n == m && GoType.beq t u && GoType.beqFields r s
  | _, _ => false
end

/-- The underlying type: a named struct type has the struct literal as underlying type,
every other type of the universe is its own underlying type. -/
def GoType.underlying : GoType → GoType
  | .struct _ fs => .struct "" fs
  | t => t

/-- Keys of a `map[interface{}]interface{}`: the comparable scalars (and `nil`).  Two keys
are equal when dynamic type and value agree, so `int 1` and `int8 1` are different keys. -/
inductive Key
  | nil
  | bool (b : Bool)
  | int (k : IntKind) (n : Int)
  | str (s : String)
  deriving DecidableEq

/-- Dynamically typed Go values.  `nil` is the nil interface (as a `reflect.Value`, the
zero Value).  A pointer carries its element type; a struct carries its name and, for every
field, the name, the declared type and the stored value (for a field of type `interface{}`
the stored value is the dynamic value, possibly `nil`). -/
inductive Value
  | nil
  | bool (b : Bool)
  | int (k : IntKind) (n : Int)
  | str (s : String)
  | map (m : List (Key × Value))
  | nilptr (t : GoType)
  | ptr (t : GoType) (target : Value)
  | struct (name : String) (fields : List (String × GoType × Value))

/-- A struct field: name, declared type, stored value. -/
abbrev Field := String × GoType × Value

/-- A `map[interface{}]interface{}`, as an association list in insertion order. -/
abbrev GoMap := List (Key × Value)

/-- Map lookup `m[k]` in its two-result form. -/
def mapGet : GoMap → Key → Option Value
  | [], _ => none
  | (k', v) :: m, k => if k' = k then some v else mapGet m k

/-- Map assignment `m[k] = v`. -/
def mapSet : GoMap → Key → Value → GoMap
  | [], k, v => [(k, v)]
  | (k', v') :: m, k, v => if k' = k then (k, v) :: m else (k', v') :: mapSet m k v

/-- The dynamic type `reflect.TypeOf(v)`; `none` for the nil interface. -/
def typeOf : Value → Option GoType
  | .nil => none
  | .bool _ => some .bool
  | .int k _ => some (.int k)
  | .str _ => some .string
  | .map _ => some .imap
  | .nilptr t => some (.ptr t)
  | .ptr t _ => some (.ptr t)
  | .struct n fs => some (.struct n (fs.map fun f => (f.1, f.2.1)))

mutual
/-- The zero value of a type. -/
def zero : GoType → Value
  | .bool => .bool false
  | .int k => .int k 0
  | .string => .str ""
  | .iface => .nil
  | .imap => .map []
  | .ptr t => .nilptr t
  | .struct n fs => .struct n (zeroFields fs)
/-- The zero values of a list of fields. -/
def zeroFields : List (String × GoType) → List (String × GoType × Value)
  | [] => []
  | (n, t) :: r => (n, t, zero t) :: zeroFields r
end

/-- The string `string(rune(n))` that Go's integer-to-string conversion yields: the code
point `n` when it is a Unicode scalar value, U+FFFD otherwise. -/
def runeString (n : Int) : String :=
  if 0 ≤ n ∧ (n.toNat < 0xD800 ∨ (0xDFFF < n.toNat ∧ n.toNat < 0x110000)) then
    String.singleton (Char.ofNat n.toNat)
  else String.singleton (Char.ofNat 0xFFFD)

/-- Go's `src.ConvertibleTo(dst)` on the modelled universe: everything converts to
`interface{}`; integers convert to integers and to strings; pointers convert when their
element types have identical underlying types; otherwise the underlying types must be
identical. -/
def convertible (src dst : GoType) : Bool :=
  match src, dst with
  | _, .iface => true
  | .int _, .int _ => true
  | .int _, .string => true
  | .ptr a, .ptr b => a.underlying.beq b.underlying
  | s, d => s.underlying.beq d.underlying

/-- Go's `reflect.ValueOf(v).Convert(dst)`, for a `v` whose type is convertible to `dst`. -/
def convert (v : Value) (dst : GoType) : Value :=
  match dst, v with
  | .iface, v => v
  | .int k, .int _ n => .int k (wrap k n)
  | .string, .int _ n => .str (runeString n)
  | .struct m _, .struct _ fs => .struct m fs
  | .ptr b, .nilptr _ => .nilptr b
  | .ptr b, .ptr _ (.struct n fs) =>
    match b with
    | .struct m _ => .ptr b (.struct m fs)
    | _ => .ptr b (.struct n fs)
  | .ptr b, .ptr _ tgt => .ptr b tgt
  | _, v => v

/-- The loop `for v.Kind() == reflect.Ptr { v = v.Elem() }` started at `reflect.ValueOf(x)`:
the static type and the value reached, or `none` when the zero `reflect.Value` is reached
(`x` is nil, or a nil pointer is dereferenced). -/
def stripPtr : Value → Option (GoType × Value)
  | .nil => none
  | .nilptr _ => none
  | .ptr t tgt =>
    match t with
    | .ptr _ => stripPtr tgt
    | _ => some (t, tgt)
  | .bool b => some (.bool, .bool b)
  | .int k n => some (.int k, .int k n)
  | .str s => some (.string, .str s)
  | .map m => some (.imap, .map m)
  | .struct n fs => some (.struct n (fs.map fun f => (f.1, f.2.1)), .struct n fs)

/-! ## Outcomes and collaborators -/

/-- Outcome of a call that may panic: a normal return with the final state and the Go
`error` (`none` for `nil`), or a run-time panic. -/
inductive Exec (σ : Type)
  | ret (s : σ) (err : Option String)
  | panic (msg : String)

/-- What `codec.go` takes from outside: the integer type of the `Seq` field of the
`Request` and `Response` headers, `unicode.IsUpper`, and the msgpack serializer
(`Marshal`; `Unmarshal` is the decoding into an `interface{}` with the untyped map
decoder; `UnmarshalInto b t old` is `msgpack.Unmarshal(b, p)` for a pointer `p` to a
location of type `t` holding `old`, and yields the location's new content and the
error). -/
structure Env where
  seqKind : IntKind
  isUpper : Char → Bool
  Marshal : Value → Except String (List Byte)
  Unmarshal : List Byte → Except String Value
  UnmarshalInto : List Byte → GoType → Value → Value × Option String

/-- Go's `token.IsExported(name)`: the first rune is an upper-case letter. -/
def IsExported (env : Env) (name : String) : Bool :=
  match name.data with
  | [] => false
  | c :: _ => env.isUpper c

/-- The error `errMsg` of `codec.go`. -/
def errMsg : String := "read error message"

/-- Panic of `reflect.Value.Type` on the zero Value. -/
def panicTypeOnZero : String := "reflect: call of reflect.Value.Type on zero Value"

/-- Panic of `reflect.Value.Set` on a field reached through an unexported name. -/
def panicSetUnexported : String :=
  "reflect: reflect.Value.Set using value obtained using unexported field"

/-- Panic of `reflect.Value.Interface` on a field reached through an unexported name. -/
def panicInterfaceUnexported : String :=
  "reflect.Value.Interface: cannot return value obtained from unexported field or method"

/-- Panic of `reflect.Value.Elem` on a value that is neither a pointer nor an interface. -/
def panicElem : String := "reflect: call of reflect.Value.Elem on non-pointer Value"

/-- Panic of a failed single-result type assertion. -/
def panicAssert : String := "interface conversion: interface \x7b\x7d is not map[interface \x7b\x7d]interface \x7b\x7d"

/-- Panic of a method call on the nil `reflect.Type`. -/
def panicNilType : String := "runtime error: invalid memory address or nil pointer dereference"

/-! ## The argument marshaler -/

/-- Go's `field.Set(x)`: panics when the field was reached through an unexported name. -/
def setField (ro : Bool) (x : Value) : Exec Value :=
  if ro then .panic panicSetUnexported else .ret x none

/-- Body of `convertArg` on a destination location of static type `ty` holding `val`;
`ro` tells that the location was reached through an unexported field, `ptr` that a pointer
has been followed, `argV` is the decoded value after its own pointer loop.  The result is
the location's new content. -/
def convertArgLoop (env : Env) (ro ptr : Bool) (ty : GoType) (val : Value)
    (argV : Option (GoType × Value)) : Exec Value :=
  match ty, val with
  | .ptr t, .ptr t' tgt =>
    match convertArgLoop env ro true t tgt argV with
    | .ret tgt' err => .ret (.ptr t' tgt') err
    | .panic msg => .panic msg
  | .ptr _, _ => .panic panicTypeOnZero
  | ty, val =>
    match argV with
    | none => .panic panicTypeOnZero
    | some (aty, aval) =>
      if ty.beq aty then setField ro aval
      else if convertible aty ty then setField ro (convert aval ty)
      else if ptr then
        match env.Marshal aval with
        | .error err => .ret val (some err)
        | .ok b =>
          if ro then .panic panicInterfaceUnexported
          else
            match env.UnmarshalInto b ty val with
            | (val', err) => .ret val' err
      else .ret val none

/-- Function `convertArg(field, reflect.ValueOf(arg))`. -/
def convertArg (env : Env) (ro : Bool) (ty : GoType) (val : Value) (arg : Value) :
    Exec Value :=
  convertArgLoop env ro false ty val (stripPtr arg)

/-- The loop of `readArg` over the fields of the destination struct, from field index `i`
(0-based) on: field `i` is looked up under the key `int8(i+1)`. -/
def readArgFields (env : Env) (args : GoMap) : List Field → Nat → Exec (List Field)
  | [], _ => .ret [] none
  | (name, ty, val) :: rest, i =>
    match mapGet args (.int .int8 (wrap .int8 (i + 1))) with
    | some arg =>
      match convertArg env (!IsExported env name) ty val arg with
      | .panic msg => .panic msg
      | .ret val' (some err) => .ret ((name, ty, val') :: rest) (some err)
      | .ret val' none =>
        match readArgFields env args rest (i + 1) with
        | .panic msg => .panic msg
        | .ret rest' err => .ret ((name, ty, val') :: rest') err
    | none =>
      match readArgFields env args rest (i + 1) with
      | .panic msg => .panic msg
      | .ret rest' err => .ret ((name, ty, val) :: rest') err

/-- The non-struct branch of `readArg`: key `int8(1)` is converted into `v` itself. -/
def readArgSingle (env : Env) (v : Value) (args : GoMap) : Exec Value :=
  match mapGet args (.int .int8 1) with
  | some arg =>
    match typeOf v with
    | some ty => convertArg env false ty v arg
    | none => .panic panicTypeOnZero
  | none => .ret v none

/-- Function `readArg(reflect.ValueOf(v), args)`; the result is `v` after the call (a pointer with
its updated target). -/
def readArg (env : Env) (v : Value) (args : GoMap) : Exec Value :=
  match v with
  | .ptr t tgt =>
    match t, tgt with
    | .struct _ _, .struct name fs =>
      match readArgFields env args fs 0 with
      | .ret fs' err => .ret (.ptr t (.struct name fs')) err
      | .panic msg => .panic msg
    | _, _ => readArgSingle env v args
  | .nilptr _ => readArgSingle env v args
  | _ => .panic panicElem

/-- The loop of `writeArg` over the fields of a struct, from field index `i` (0-based) on:
field `i` is stored under the key `i+1`, a Go `int`. -/
def writeArgFields (env : Env) : List Field → Nat → GoMap → Except String GoMap
  | [], _, args => .ok args
  | (name, _, val) :: rest, i, args =>
    if IsExported env name then
      writeArgFields env rest (i + 1) (mapSet args (.int .int (i + 1)) val)
    else .error "must Exported"

/-- Function `writeArg(body)`: the map, or the error (in which case the map returned is nil). -/
def writeArg (env : Env) (body : Value) : Except String GoMap :=
  match stripPtr body with
  | some (.struct _ _, .struct _ fs) =>
    match writeArgFields env fs 0 [] with
    | .ok args => .ok (mapSet args (.str "n") (.int .int fs.length))
    | .error err => .error err
  | _ => .ok (mapSet (mapSet [] (.int .int 1) body) (.str "n") (.int .int 1))

/-! ## The envelope codecs -/

/-- Modelled from the spec: the `Request` header, whose declaration is not in `codec.go`.  The
fields are the ones the codec reads and writes (service name, method name, correlation
identifier, fire-and-forget flag); `Seq` is an integer of kind `Env.seqKind`. -/
structure Request where
  Service : String
  Method : String
  Seq : Int
  NoResp : Bool

/-- Modelled from the spec: the `Response` header, whose declaration is not in `codec.go`.
The fields are the ones the codec reads and writes (correlation identifier, error message);
`Seq` is an integer of kind `Env.seqKind`. -/
structure Response where
  Seq : Int
  Error : String

/-- The client codec; a nil map is the empty map. -/
structure mpClientCodec where
  rwc : Conn
  req : GoMap
  resp : GoMap
  closed : Bool

/-- The server codec; a nil map is the empty map. -/
structure mpServerCodec where
  rwc : Conn
  req : GoMap
  resp : GoMap
  closed : Bool

/-- The comparison `body == nil` on an `interface{}`. -/
def Value.isNil : Value → Bool
  | .nil => true
  | _ => false

/-- The test `reflect.ValueOf(body).Kind() == reflect.Ptr`. -/
def Value.isPtr : Value → Bool
  | .ptr _ _ => true
  | .nilptr _ => true
  | _ => false

/-- The integer held by a value (0 when it is not an integer). -/
def Value.asInt : Value → Int
  | .int _ n => n
  | _ => 0

/-- The lines of `WriteRequest` after the body has been packed: `service`, `func` and, unless
`NoResp`, `session` are stored, the envelope is marshalled and written as one frame. -/
def mpClientCodec.finishRequest (env : Env) (c : mpClientCodec) (r : Request) :
    mpClientCodec × Option String :=
  let req1 := mapSet c.req (.str "service") (.str r.Service)
  let req2 := mapSet req1 (.str "func") (.str r.Method)
  let req3 := if !r.NoResp then mapSet req2 (.str "session") (.int env.seqKind r.Seq) else req2
  let c1 := { c with req := req3 }
  match env.Marshal (.map c1.req) with
  | .error err => (c1, some err)
  | .ok b =>
    match writeFrame c1.rwc b with
    | (rwc1, err) => ({ c1 with rwc := rwc1 }, err)

/-- Method `(*mpClientCodec).WriteRequest(r, body)`. -/
def mpClientCodec.WriteRequest (env : Env) (c : mpClientCodec) (r : Request) (body : Value) :
    mpClientCodec × Option String :=
  let c0 := { c with req := [] }
  if !body.isNil then
    match writeArg env body with
    | .error err => (c0, some err)
    | .ok args => mpClientCodec.finishRequest env { c0 with req := mapSet c0.req (.str "args") (.map args) } r
  else mpClientCodec.finishRequest env c0 r

/-- The lines of `ReadResponseHeader` from `iOk, succ := c.resp["ok"]` on. -/
def mpClientCodec.readOk (c : mpClientCodec) (r : Response) : Exec (mpClientCodec × Response) :=
  match mapGet c.resp (.str "ok") with
  | none => .ret (c, r) (some errMsg)
  | some (.bool ok) =>
    if !ok then
      match mapGet c.resp (.str "data") with
      | none => .ret (c, { r with Error := "call error" }) none
      | some (.str data) => .ret (c, { r with Error := data }) none
      | some _ => .ret (c, { r with Error := "call error" }) none
    else .ret (c, r) none
  | some _ => .ret (c, r) (some errMsg)

/-- The lines of `ReadResponseHeader` after the envelope has been decoded to `m`. -/
def mpClientCodec.readEnvelope (env : Env) (c : mpClientCodec) (r : Response) (m : Value) :
    Exec (mpClientCodec × Response) :=
  match m with
  | .map resp =>
    let c1 := { c with resp := resp }
    match mapGet c1.resp (.str "session") with
    | none => .ret (c1, r) (some errMsg)
    | some iSession =>
      match typeOf iSession with
      | none => .panic panicNilType
      | some t =>
        if convertible t (.int env.seqKind) then
          mpClientCodec.readOk c1 { r with Seq := (convert iSession (.int env.seqKind)).asInt }
        else .ret (c1, r) (some errMsg)
  | _ => .panic panicAssert

/-- Method `(*mpClientCodec).ReadResponseHeader(r)`. -/
def mpClientCodec.ReadResponseHeader (env : Env) (c : mpClientCodec) (r : Response) :
    Exec (mpClientCodec × Response) :=
  match readFrame c.rwc with
  | (rwc1, .error err) => .ret ({ c with rwc := rwc1 }, r) (some err)
  | (rwc1, .ok b) =>
    match env.Unmarshal b with
    | .error err => .ret ({ c with rwc := rwc1 }, r) (some err)
    | .ok m => mpClientCodec.readEnvelope env { c with rwc := rwc1 } r m

/-- Method `(*mpClientCodec).ReadResponseBody(body)`; the result is `body` after the call. -/
def mpClientCodec.ReadResponseBody (env : Env) (c : mpClientCodec) (body : Value) : Exec Value :=
  if body.isNil then .ret body none
  else if !body.isPtr then .ret body (some "msgpack: attempt to decode into a non-pointer")
  else
    match mapGet c.resp (.str "data") with
    | none => .ret body (some errMsg)
    | some (.map data) => readArg env body data
    | some _ => .ret body (some errMsg)

/-- Method `(*mpClientCodec).Close()`. -/
def mpClientCodec.Close (c : mpClientCodec) : mpClientCodec × Option String :=
  if c.closed then (c, none)
  else
    match c.rwc.Close with
    | (rwc1, err) => ({ c with closed := true, rwc := rwc1 }, err)

/-- The lines of `ReadRequestHeader` from `iService, succ := c.req["service"]` on. -/
def mpServerCodec.readNames (c : mpServerCodec) (r : Request) : Exec (mpServerCodec × Request) :=
  match mapGet c.req (.str "service") with
  | none => .ret (c, r) (some errMsg)
  | some (.str service) =>
    let r1 := { r with Service := service }
    match mapGet c.req (.str "func") with
    | none => .ret (c, r1) (some errMsg)
    | some (.str method) => .ret (c, { r1 with Method := method }) none
    | some _ => .ret (c, r1) (some errMsg)
  | some _ => .ret (c, r) (some errMsg)

/-- The lines of `ReadRequestHeader` after the envelope has been decoded to `m`. -/
def mpServerCodec.readEnvelope (env : Env) (c : mpServerCodec) (r : Request) (m : Value) :
    Exec (mpServerCodec × Request) :=
  match m with
  | .map req =>
    let c1 := { c with req := req }
    match mapGet c1.req (.str "session") with
    | none => mpServerCodec.readNames c1 { r with NoResp := true }
    | some iSession =>
      match typeOf iSession with
      | none => .panic panicNilType
      | some t =>
        if convertible t (.int env.seqKind) then
          mpServerCodec.readNames c1 { r with Seq := (convert iSession (.int env.seqKind)).asInt }
        else .ret (c1, r) (some errMsg)
  | _ => .panic panicAssert

/-- Method `(*mpServerCodec).ReadRequestHeader(r)`. -/
def mpServerCodec.ReadRequestHeader (env : Env) (c : mpServerCodec) (r : Request) :
    Exec (mpServerCodec × Request) :=
  match readFrame c.rwc with
  | (rwc1, .error err) => .ret ({ c with rwc := rwc1 }, r) (some err)
  | (rwc1, .ok b) =>
    match env.Unmarshal b with
    | .error err => .ret ({ c with rwc := rwc1 }, r) (some err)
    | .ok m => mpServerCodec.readEnvelope env { c with rwc := rwc1 } r m

/-- Method `(*mpServerCodec).ReadRequestBody(body)`; the result is `body` after the call.  The
codec and its stream are neither read nor written beyond the lookup in `c.req`. -/
def mpServerCodec.ReadRequestBody (env : Env) (c : mpServerCodec) (body : Value) : Exec Value :=
  if body.isNil then .ret body none
  else
    match mapGet c.req (.str "args") with
    | none => .ret body none
    | some (.map args) => readArg env body args
    | some _ => .ret body (some errMsg)

/-- The envelope `c.resp` that `WriteResponse` has built when it reaches `msgpack.Marshal`. -/
def mpServerCodec.buildResponse (env : Env) (r : Response) (body : Value) : GoMap :=
  let resp0 := mapSet [] (.str "session") (.int env.seqKind r.Seq)
  if r.Error ≠ "" then
    mapSet (mapSet resp0 (.str "ok") (.bool false)) (.str "data") (.str r.Error)
  else
    let resp1 := mapSet resp0 (.str "ok") (.bool true)
    if !body.isNil then
      match writeArg env body with
      | .error err => mapSet (mapSet resp1 (.str "ok") (.bool false)) (.str "data") (.str err)
      | .ok data => mapSet resp1 (.str "data") (.map data)
    else resp1

/-- Method `(*mpServerCodec).WriteResponse(r, body)`. -/
def mpServerCodec.WriteResponse (env : Env) (c : mpServerCodec) (r : Response) (body : Value) :
    mpServerCodec × Option String :=
  let c1 := { c with resp := mpServerCodec.buildResponse env r body }
  match env.Marshal (.map c1.resp) with
  | .error err => (c1, some err)
  | .ok b =>
    match writeFrame c1.rwc b with
    | (rwc1, err) => ({ c1 with rwc := rwc1 }, err)

/-- Method `(*mpServerCodec).Close()`. -/
def mpServerCodec.Close (c : mpServerCodec) : mpServerCodec × Option String :=
  if c.closed then (c, none)
  else
    match c.rwc.Close with
    | (rwc1, err) => ({ c with closed := true, rwc := rwc1 }, err)

/-! ## The serializer, seen from the codec

`codec.go` uses msgpack as a black box, and so do the statements of this file: the
serializer is a field of `Env`.  Where a statement needs to say what comes back from the
wire it uses `wireWith kind`, the round trip of a value through encoding and decoding into an
`interface{}`: strings, booleans and the map structure are preserved, and an integer comes
back with a type that `kind` chooses.  `wire` is the instance in which every integer comes
back with the smallest type that holds it (an integer between -128 and 127 as `int8`),
whatever its type was on the sending side; `sizedKind` is the instance in which only Go
`int` and `uint` do.  `mpEncode` and `mpDecode` are an executable encoder and decoder for the
msgpack format restricted to nil, booleans, integers, ASCII strings of at most 255 bytes and
maps; `testEnv`, the environment of the examples, is built from them. -/

/-- The smallest integer type that holds `n`, as the decoder chooses it. -/
def wireKind (n : Int) : IntKind :=
  if 0 ≤ n then
    if n ≤ 127 then .int8
    else if n ≤ 255 then .uint8
    else if n ≤ 65535 then .uint16
    else if n ≤ 4294967295 then .uint32
    else .uint64
  else
    if -128 ≤ n then .int8
    else if -32768 ≤ n then .int16
    else if -2147483648 ≤ n then .int32
    else .int64

/-- A map key after the round trip through the serializer, when the decoder returns an
integer that had kind `k` and value `n` with the kind `kind k n`. -/
def wireKeyWith (kind : IntKind → Int → IntKind) : Key → Key
  | .int k n => .int (kind k n) n
  | k => k

mutual
/-- A value after the round trip through the serializer, when the decoder returns an integer
that had kind `k` and value `n` with the kind `kind k n`.  Strings, booleans and the map
structure are preserved; pointers are encoded as what they point to (a nil pointer as nil);
a struct value is encoded as the map of its fields by name and so comes back as a map (the
serializer leaves unexported fields out, which this definition does not: no statement of
this file depends on the entries of such a map). -/
def wireWith (kind : IntKind → Int → IntKind) : Value → Value
  | .nil => .nil
  | .bool b => .bool b
  | .int k n => .int (kind k n) n
  | .str s => .str s
  | .map m => .map (wireEntriesWith kind m [])
  | .nilptr _ => .nil
  | .ptr _ tgt => wireWith kind tgt
  | .struct _ fs => .map (wireFieldsWith kind fs [])
/-- The entries of a map after the round trip, stored one by one into `acc`. -/
def wireEntriesWith (kind : IntKind → Int → IntKind) :
    List (Key × Value) → List (Key × Value) → List (Key × Value)
  | [], acc => acc
  | (k, v) :: r, acc =>
    wireEntriesWith kind r (mapSet acc (wireKeyWith kind k) (wireWith kind v))
/-- The fields of a struct after the round trip, stored by name one by one into `acc`. -/
def wireFieldsWith (kind : IntKind → Int → IntKind) :
    List (String × GoType × Value) → List (Key × Value) → List (Key × Value)
  | [], acc => acc
  | (name, _, v) :: r, acc => wireFieldsWith kind r (mapSet acc (.str name) (wireWith kind v))
end

/-- The decoder that returns every integer with the smallest type that holds it. -/
def compactKind : IntKind → Int → IntKind := fun _ n => wireKind n

/-- A value after the round trip through the serializer that returns every integer with the
smallest type that holds it. -/
def wire : Value → Value := wireWith compactKind

/-- The byte `n mod 256`. -/
def byte (n : Nat) : Byte := ⟨n % 256, Nat.mod_lt _ (by decide)⟩

/-- The `w` bytes of `n`, most significant first. -/
def beBytes : Nat → Nat → List Byte
  | 0, _ => []
  | w + 1, n => byte (n / 256 ^ w) :: beBytes w n

/-- The number a big-endian byte string denotes. -/
def beNat (b : List Byte) : Nat := b.foldl (fun acc x => acc * 256 + x.val) 0

/-- Msgpack encoding of an integer, in the shortest form. -/
def mpEncodeInt (n : Int) : List Byte :=
  if 0 ≤ n then
    if n ≤ 127 then [byte n.toNat]
    else if n ≤ 255 then byte 0xcc :: beBytes 1 n.toNat
    else if n ≤ 65535 then byte 0xcd :: beBytes 2 n.toNat
    else if n ≤ 4294967295 then byte 0xce :: beBytes 4 n.toNat
    else byte 0xcf :: beBytes 8 n.toNat
  else
    if -32 ≤ n then [byte (n + 256).toNat]
    else if -128 ≤ n then byte 0xd0 :: beBytes 1 (n + 256).toNat
    else if -32768 ≤ n then byte 0xd1 :: beBytes 2 (n + 65536).toNat
    else if -2147483648 ≤ n then byte 0xd2 :: beBytes 4 (n + 4294967296).toNat
    else byte 0xd3 :: beBytes 8 (n + 18446744073709551616).toNat

/-- Msgpack encoding of an ASCII string of at most 255 bytes. -/
def mpEncodeStr (s : String) : Except String (List Byte) :=
  if s.data.all (fun c => decide (c.toNat < 128)) then
    if s.data.length ≤ 31 then .ok (byte (0xa0 + s.data.length) :: s.data.map fun c => byte c.toNat)
    else if s.data.length ≤ 255 then
      .ok (byte 0xd9 :: byte s.data.length :: s.data.map fun c => byte c.toNat)
    else .error "msgpack: string too long for this encoder"
  else .error "msgpack: non-ASCII string"

/-- Msgpack encoding of a map key. -/
def mpEncodeKey : Key → Except String (List Byte)
  | .nil => .ok [byte 0xc0]
  | .bool b => .ok [byte (if b then 0xc3 else 0xc2)]
  | .int _ n => .ok (mpEncodeInt n)
  | .str s => mpEncodeStr s

mutual
/-- Msgpack encoding of a value. -/
def mpEncode : Value → Except String (List Byte)
  | .nil => .ok [byte 0xc0]
  | .bool b => .ok [byte (if b then 0xc3 else 0xc2)]
  | .int _ n => .ok (mpEncodeInt n)
  | .str s => mpEncodeStr s
  | .map m =>
    match mpEncodeEntries m with
    | .error err => .error err
    | .ok body =>
      if m.length ≤ 15 then .ok (byte (0x80 + m.length) :: body)
      else if m.length ≤ 65535 then .ok (byte 0xde :: (beBytes 2 m.length ++ body))
      else .error "msgpack: map too long for this encoder"
  | .nilptr _ => .ok [byte 0xc0]
  | .ptr _ tgt => mpEncode tgt
  | .struct _ _ => .error "msgpack: struct values are outside this encoder"
/-- Msgpack encoding of the entries of a map, one after the other. -/
def mpEncodeEntries : List (Key × Value) → Except String (List Byte)
  | [] => .ok []
  | (k, v) :: r =>
    match mpEncodeKey k, mpEncode v, mpEncodeEntries r with
    | .ok bk, .ok bv, .ok br => .ok (bk ++ bv ++ br)
    | .error err, _, _ => .error err
    | _, .error err, _ => .error err
    | _, _, .error err => .error err
end

/-- The map key a decoded value stands for. -/
def keyOfValue : Value → Except String Key
  | .nil => .ok .nil
  | .bool b => .ok (.bool b)
  | .int k n => .ok (.int k n)
  | .str s => .ok (.str s)
  | _ => .error "msgpack: unhashable map key"

/-- Reads `n` bytes off the input. -/
def takeBytes (n : Nat) (b : List Byte) : Except String (List Byte × List Byte) :=
  if n ≤ b.length then .ok (b.take n, b.drop n) else .error "unexpected EOF"

/-- Decodes an unsigned integer of `w` bytes as a value of kind `k`. -/
def mpDecodeUint (k : IntKind) (w : Nat) (b : List Byte) : Except String (Value × List Byte) :=
  match takeBytes w b with
  | .error err => .error err
  | .ok (x, rest) => .ok (.int k (beNat x), rest)

/-- Decodes a two's complement integer of `w` bytes as a value of kind `k`. -/
def mpDecodeSint (k : IntKind) (w : Nat) (b : List Byte) : Except String (Value × List Byte) :=
  match takeBytes w b with
  | .error err => .error err
  | .ok (x, rest) =>
    .ok (.int k (if beNat x < 256 ^ w / 2 then (beNat x : Int) else (beNat x : Int) - 256 ^ w), rest)

/-- Decodes a string of `n` bytes. -/
def mpDecodeStr (n : Nat) (b : List Byte) : Except String (Value × List Byte) :=
  match takeBytes n b with
  | .error err => .error err
  | .ok (x, rest) => .ok (.str (String.mk (x.map fun c => Char.ofNat c.val)), rest)

mutual
/-- Decodes one msgpack value into an `interface{}`; maps come back as
`map[interface{}]interface{}`.  `fuel` bounds the nesting depth and the entry count. -/
def mpDecodeValue : Nat → List Byte → Except String (Value × List Byte)
  | 0, _ => .error "msgpack: out of fuel"
  | _ + 1, [] => .error "EOF"
  | fuel + 1, c :: b =>
    if c.val ≤ 0x7f then .ok (.int .int8 c.val, b)
    else if c.val ≤ 0x8f then
      match mpDecodeEntries fuel (c.val - 0x80) b [] with
      | .error err => .error err
      | .ok (m, rest) => .ok (.map m, rest)
    else if 0xa0 ≤ c.val ∧ c.val ≤ 0xbf then mpDecodeStr (c.val - 0xa0) b
    else if c.val = 0xc0 then .ok (.nil, b)
    else if c.val = 0xc2 then .ok (.bool false, b)
    else if c.val = 0xc3 then .ok (.bool true, b)
    else if c.val = 0xcc then mpDecodeUint .uint8 1 b
    else if c.val = 0xcd then mpDecodeUint .uint16 2 b
    else if c.val = 0xce then mpDecodeUint .uint32 4 b
    else if c.val = 0xcf then mpDecodeUint .uint64 8 b
    else if c.val = 0xd0 then mpDecodeSint .int8 1 b
    else if c.val = 0xd1 then mpDecodeSint .int16 2 b
    else if c.val = 0xd2 then mpDecodeSint .int32 4 b
    else if c.val = 0xd3 then mpDecodeSint .int64 8 b
    else if c.val = 0xd9 then
      match b with
      | [] => .error "EOF"
      | n :: b1 => mpDecodeStr n.val b1
    else if c.val = 0xde then
      match takeBytes 2 b with
      | .error err => .error err
      | .ok (x, b1) =>
        match mpDecodeEntries fuel (beNat x) b1 [] with
        | .error err => .error err
        | .ok (m, rest) => .ok (.map m, rest)
    else if 0xe0 ≤ c.val then .ok (.int .int8 ((c.val : Int) - 256), b)
    else .error "msgpack: code outside this decoder"
/-- Decodes `n` map entries and stores them one by one into `acc`. -/
def mpDecodeEntries : Nat → Nat → List Byte → List (Key × Value) →
    Except String (List (Key × Value) × List Byte)
  | _, 0, b, acc => .ok (acc, b)
  | 0, _ + 1, _, _ => .error "msgpack: out of fuel"
  | fuel + 1, n + 1, b, acc =>
    match mpDecodeValue fuel b with
    | .error err => .error err
    | .ok (kv, b1) =>
      match keyOfValue kv with
      | .error err => .error err
      | .ok k =>
        match mpDecodeValue fuel b1 with
        | .error err => .error err
        | .ok (v, b2) => mpDecodeEntries fuel n b2 (mapSet acc k v)
end

/-- Decoding of a whole payload into an `interface{}`. -/
def mpDecode (b : List Byte) : Except String Value :=
  match mpDecodeValue (b.length + 1) b with
  | .error err => .error err
  | .ok (v, _) => .ok v

/-- Decoding of a payload into a location of type `t`: the generic value is stored when its
type is `t` or converts to `t`; anything else is refused by this decoder. -/
def mpDecodeInto (b : List Byte) (t : GoType) (old : Value) : Value × Option String :=
  match mpDecode b with
  | .error err => (old, some err)
  | .ok v =>
    match typeOf v with
    | none => (zero t, none)
    | some tv =>
      if t.beq tv then (v, none)
      else if convertible tv t then (convert v t, none)
      else (old, some "msgpack: destination type outside this decoder")

/-- The environment of the examples: `Seq` is a `uint64` (as in `net/rpc`), upper case is
decided on ASCII, the serializer is `mpEncode` / `mpDecode`. -/
def testEnv : Env :=
  { seqKind := .uint64
    isUpper := Char.isUpper
    Marshal := mpEncode
    Unmarshal := mpDecode
    UnmarshalInto := mpDecodeInto }

/-- The type `Args` of `test/main.go`. -/
def ArgsT : GoType := .struct "Args" [("A", .int .int), ("B", .int .int)]

/-- The value `Args{A: a, B: b}`. -/
def Args (a b : Int) : Value :=
  .struct "Args" [("A", .int .int, .int .int a), ("B", .int .int, .int .int b)]

/-- A client codec on an empty stream. -/
def client0 : mpClientCodec := { rwc := emptyConn, req := [], resp := [], closed := false }

/-- A server codec on an empty stream. -/
def server0 : mpServerCodec := { rwc := emptyConn, req := [], resp := [], closed := false }

/-! ## Predicates and example values used by the statements -/

/-- The value `&&T{A: 1, b: 2}`: a struct with an unexported second field behind two
pointers. -/
def hiddenField : Value :=
  .ptr (.ptr (.struct "T" [("A", .int .int), ("b", .int .int)]))
    (.ptr (.struct "T" [("A", .int .int), ("b", .int .int)])
      (.struct "T" [("A", .int .int, .int .int 1), ("b", .int .int, .int .int 2)]))

/-- The struct type named `n` whose fields are those of `fs`. -/
def structTypeOf (n : String) (fs : List Field) : GoType :=
  .struct n (fs.map fun f => (f.1, f.2.1))

/-- A stream that holds one frame, the encoding of `v` (the empty stream when `v` is outside
the encoder). -/
def connOf (v : Value) : Conn :=
  match mpEncode v with
  | .ok b => (writeFrame emptyConn b).1
  | .error _ => emptyConn

/-- A zero-valued `Request`. -/
def request0 : Request := { Service := "", Method := "", Seq := 0, NoResp := false }

/-- A zero-valued `Response`. -/
def response0 : Response := { Seq := 0, Error := "" }

/-- A server codec whose stream holds the call `cluster_service.Add` with `session` 7. -/
def srvAdd : mpServerCodec :=
  { server0 with rwc := connOf (.map [(.str "service", .str "cluster_service"),
      (.str "func", .str "Add"), (.str "session", .int .uint64 7)]) }

/-- A server codec whose stream holds the call `cluster_service.Print` without `session`. -/
def srvPrint : mpServerCodec :=
  { server0 with rwc := connOf (.map [(.str "service", .str "cluster_service"),
      (.str "func", .str "Print")]) }

/-- A server codec whose stream holds a call whose `session` is the `int8` -1. -/
def srvNeg : mpServerCodec :=
  { server0 with rwc := connOf (.map [(.str "service", .str "cluster_service"),
      (.str "func", .str "Add"), (.str "session", .int .int8 (-1))]) }

/-- A client codec whose stream holds a failure result whose `data` is the integer 42. -/
def cliFail : mpClientCodec :=
  { client0 with rwc := connOf (.map [(.str "session", .int .uint64 7), (.str "ok", .bool false),
      (.str "data", .int .int 42)]) }

/-- A server codec that has decoded the envelope of `Add(Args{1, 2})`. -/
def srvDecoded : mpServerCodec :=
  { server0 with req := [(.str "args", .map [(.int .int8 1, .int .int8 1),
      (.int .int8 2, .int .int8 2), (.str "n", .int .int8 2)]),
      (.str "service", .str "cluster_service"), (.str "func", .str "Add"),
      (.str "session", .int .int8 7)] }

/-- The header of the call `cluster_service.Add` with `Seq` 7. -/
def addRequest : Request :=
  { Service := "cluster_service", Method := "Add", Seq := 7, NoResp := false }

/-- The call envelope of `Add(Args{A: 1, B: 2})` with `Seq` 7. -/
def addEnvelope (env : Env) : GoMap :=
  [(.str "args", .map [(.int .int 1, .int .int 1), (.int .int 2, .int .int 2),
      (.str "n", .int .int 2)]),
   (.str "service", .str "cluster_service"), (.str "func", .str "Add"),
   (.str "session", .int env.seqKind 7)]

/-- The result envelope of the call with `Seq` 7 returning the integer 3. -/
def addResult (env : Env) : GoMap :=
  [(.str "session", .int env.seqKind 7), (.str "ok", .bool true),
   (.str "data", .map [(.int .int 1, .int .int 3), (.str "n", .int .int 1)])]

/-- The serializer of `env` accepts `v`, yields fewer than 2^32 bytes for it, and decodes
them to `wire v`. -/
def RoundTrips (env : Env) (v : Value) : Prop :=
  ∃ b, env.Marshal v = .ok b ∧ b.length < 2 ^ 32 ∧ env.Unmarshal b = .ok (wire v)

/-- A result envelope that `ReadResponseHeader` must refuse: `session` is absent, or its
type does not convert to the kind of `Seq`, or `ok` is absent, or `ok` is not a boolean. -/
def badResult (env : Env) (m : GoMap) : Prop :=
  mapGet m (.str "session") = none ∨
  (∃ sv t, mapGet m (.str "session") = some sv ∧ typeOf sv = some t ∧
    convertible t (.int env.seqKind) = false) ∨
  mapGet m (.str "ok") = none ∨
  (∃ v, mapGet m (.str "ok") = some v ∧ ∀ b, v ≠ .bool b)

/-- A client codec whose stream holds a result whose `session` is nil. -/
def cliNil : mpClientCodec :=
  { client0 with rwc := connOf (.map [(.str "session", .nil), (.str "ok", .bool true)]) }

/-- A client codec that has decoded the result `3` of the call with `session` 7. -/
def cliDecoded : mpClientCodec :=
  { client0 with resp := [(.str "session", .int .int8 7), (.str "ok", .bool true),
      (.str "data", .map [(.int .int8 1, .int .int8 3), (.str "n", .int .int8 1)])] }

/-- A client codec that has decoded a successful result without `data`. -/
def cliNoData : mpClientCodec :=
  { client0 with resp := [(.str "session", .int .int8 7), (.str "ok", .bool true)] }

/-- The call envelope as the wire format describes it: `args` when there are packed
arguments, then `service` and `func`, then `session` unless the call is fire-and-forget. -/
def callEnvelope (env : Env) (r : Request) (packed : Option GoMap) : GoMap :=
  (match packed with
    | some args => [(Key.str "args", Value.map args)]
    | none => []) ++
  [(.str "service", .str r.Service), (.str "func", .str r.Method)] ++
  (if r.NoResp then [] else [(.str "session", .int env.seqKind r.Seq)])

/-- What `WriteRequest` does once its envelope is `E`: when the serializer yields `b`, `E` is
kept in `req`, one frame holding `b` is appended to the stream and no error is returned;
when the serializer fails, `E` is kept in `req` and the serializer's error is returned. -/
def sendsEnvelope (env : Env) (c : mpClientCodec) (r : Request) (body : Value) (E : GoMap) :
    Prop :=
  (∀ b, env.Marshal (.map E) = .ok b →
    mpClientCodec.WriteRequest env c r body =
      ({ c with
          req := E,
          rwc := { c.rwc with buf := c.rwc.buf ++ (putUint32 (toUint32 b.length) ++ b) } },
        none)) ∧
  (∀ err, env.Marshal (.map E) = .error err →
    mpClientCodec.WriteRequest env c r body = ({ c with req := E }, some err))

/-- The client codec after `n` calls of `Close` in a row, with the error each call
returned. -/
def mpClientCodec.closeAll : mpClientCodec → Nat → mpClientCodec × List (Option String)
  | c, 0 => (c, [])
  | c, n + 1 =>
    match c.Close with
    | (c1, err) =>
      match mpClientCodec.closeAll c1 n with
      | (c2, errs) => (c2, err :: errs)

/-- The server codec after `n` calls of `Close` in a row, with the error each call
returned. -/
def mpServerCodec.closeAll : mpServerCodec → Nat → mpServerCodec × List (Option String)
  | c, 0 => (c, [])
  | c, n + 1 =>
    match c.Close with
    | (c1, err) =>
      match mpServerCodec.closeAll c1 n with
      | (c2, errs) => (c2, err :: errs)

/-- A client codec on a stream whose `Close` fails. -/
def clientBadClose : mpClientCodec :=
  { client0 with rwc := { emptyConn with closeErr := some "close failed" } }

/-- A list of `n` exported `int` fields `F1 .. Fn`, all zero. -/
def wideFields (n : Nat) : List Field :=
  (List.range n).map fun i => ("F" ++ toString (i + 1), .int .int, .int .int 0)

/-- The type of pointers of depth `n` to `t`: `t`, `*t`, `**t`, ... -/
def behind : Nat → GoType → GoType
  | 0, t => t
  | n + 1, t => .ptr (behind n t)

/-- A chain of `n` non-nil pointers that ends on the location holding `v`, of type `t`. -/
def pointTo : Nat → GoType → Value → Value
  | 0, _, v => v
  | n + 1, t, v => .ptr (behind n t) (pointTo n t v)

/-- A server codec whose stream holds a frame whose payload is the integer 7. -/
def srvScalar : mpServerCodec := { server0 with rwc := connOf (.int .int 7) }

/-- A client codec whose stream holds a frame whose payload is msgpack nil. -/
def cliScalar : mpClientCodec := { client0 with rwc := connOf .nil }

/-- A server codec whose stream holds a call whose `session` is nil. -/
def srvNil : mpServerCodec :=
  { server0 with rwc := connOf (.map [(.str "service", .str "cluster_service"),
      (.str "func", .str "Add"), (.str "session", .nil)]) }

/-! ## Frame transport: facts -/

theorem getUint32_putUint32 (x : Nat) (h : x < 2 ^ 32) : getUint32 (putUint32 x) = x := by
  simp only [getUint32, putUint32]
  omega

theorem putUint32_length (x : Nat) : (putUint32 x).length = 4 := rfl

theorem readFull_append (r : Conn) (a b : List Byte) (h : r.buf = a ++ b) :
    r.ReadFull a.length = ({ r with buf := b }, .ok a) := by
  simp [Conn.ReadFull, h]

theorem readFrame_frame (w : Conn) (b rest : List Byte) (hlen : b.length < 2 ^ 32)
    (hw : w.buf = putUint32 (toUint32 b.length) ++ (b ++ rest)) :
    readFrame w = ({ w with buf := rest }, .ok b) := by
  have h4 : (putUint32 (toUint32 b.length)).length = 4 := rfl
  have hl : getUint32 (putUint32 (toUint32 b.length)) = b.length := by
    have hx : toUint32 b.length = b.length := Nat.mod_eq_of_lt hlen
    rw [hx]
    exact getUint32_putUint32 _ hlen
  unfold readFrame
  have e1 := readFull_append w (putUint32 (toUint32 b.length)) (b ++ rest) hw
  rw [h4] at e1
  rw [e1]
  simp only [hl]
  have e2 := readFull_append { w with buf := b ++ rest } b rest rfl
  rw [e2]

theorem writeFrame_buffer (w : Conn) (b : List Byte) :
    writeFrame w b = ({ w with buf := w.buf ++ (putUint32 (toUint32 b.length) ++ b) }, none) := by
  simp [writeFrame, Conn.Write]

/-- C2: on a loopback buffer that is empty before the write, `readFrame` applied to what
`writeFrame` wrote for a payload shorter than 2^32 bytes succeeds, returns exactly the payload
and leaves the buffer empty; `writeFrame` itself reports no error. -/
theorem C2_frame_roundtrip (w : Conn) (payload : List Byte) (hw : w.buf = [])
    (hlen : payload.length < 2 ^ 32) :
    (writeFrame w payload).2 = none ∧
    readFrame (writeFrame w payload).1 = ({ w with buf := [] }, .ok payload) := by
  rw [writeFrame_buffer]
  refine ⟨rfl, ?_⟩
  exact readFrame_frame _ payload [] hlen (by simp [hw])

/-- Witness of C2: the one-byte payload `[7]` on the empty buffer. -/
theorem C2_frame_roundtrip_witness :
    (writeFrame emptyConn [7]).2 = none ∧
    readFrame (writeFrame emptyConn [7]).1 = ({ emptyConn with buf := [] }, .ok [7]) :=
  C2_frame_roundtrip emptyConn [7] rfl (by decide)

/-! ## `writeArg`: facts -/

theorem mapSet_fresh (m : GoMap) (k : Key) (v : Value) (h : ∀ p ∈ m, p.1 ≠ k) :
    mapSet m k v = m ++ [(k, v)] := by
  induction m with
  | nil => rfl
  | cons p m ih =>
    obtain ⟨k', v'⟩ := p
    have hk : k' ≠ k := h (k', v') (List.mem_cons_self _ _)
    simp only [mapSet, if_neg hk, List.cons_append]
    rw [ih (fun q hq => h q (List.mem_cons_of_mem _ hq))]

theorem writeArgFields_exported (env : Env) (fs : List Field) :
    ∀ (i : Nat) (args : GoMap), (∀ f ∈ fs, IsExported env f.1 = true) →
      (∀ p ∈ args, ∃ j : Nat, j ≤ i ∧ p.1 = Key.int .int j) →
      writeArgFields env fs i args =
        .ok (args ++ (fs.enumFrom i).map fun p => (Key.int .int (p.1 + 1), p.2.2.2)) := by
  induction fs with
  | nil => intro i args _ _; simp [writeArgFields]
  | cons f fs ih =>
    intro i args hexp hkeys
    obtain ⟨name, ty, val⟩ := f
    have hname : IsExported env name = true := hexp (name, ty, val) (List.mem_cons_self _ _)
    have hfresh : ∀ p ∈ args, p.1 ≠ Key.int .int (i + 1) := by
      intro p hp hk
      obtain ⟨j, hj, hpj⟩ := hkeys p hp
      rw [hpj] at hk
      injection hk with _ hn
      omega
    simp only [writeArgFields, hname, if_true]
    rw [mapSet_fresh _ _ _ hfresh]
    rw [ih (i + 1) _ (fun g hg => hexp g (List.mem_cons_of_mem _ hg))]
    · simp [List.enumFrom]
    · intro p hp
      rcases List.mem_append.mp hp with h | h
      · obtain ⟨j, hj, hpj⟩ := hkeys p h
        exact ⟨j, by omega, hpj⟩
      · simp only [List.mem_singleton] at h
        exact ⟨i + 1, le_refl _, by rw [h]; simp⟩

theorem writeArgFields_unexported (env : Env) (fs : List Field) :
    ∀ (i : Nat) (args : GoMap), (∃ f ∈ fs, IsExported env f.1 = false) →
      writeArgFields env fs i args = .error "must Exported" := by
  induction fs with
  | nil => intro i args h; obtain ⟨f, hf, _⟩ := h; cases hf
  | cons f fs ih =>
    intro i args h
    obtain ⟨name, ty, val⟩ := f
    cases hname : IsExported env name with
    | false => simp [writeArgFields, hname]
    | true =>
      simp only [writeArgFields, hname, if_true]
      apply ih
      obtain ⟨g, hg, hge⟩ := h
      rcases List.mem_cons.mp hg with h1 | h1
      · subst h1
        simp only at hge
        rw [hname] at hge
        cases hge
      · exact ⟨g, h1, hge⟩

theorem writeArg_struct (env : Env) (body : Value) (tn : String) (ft : List (String × GoType))
    (n : String) (fs : List Field) (h : stripPtr body = some (.struct tn ft, .struct n fs)) :
    writeArg env body =
      match writeArgFields env fs 0 [] with
      | .ok args => .ok (mapSet args (.str "n") (.int .int fs.length))
      | .error err => .error err := by
  simp only [writeArg, h]

/-- C4: for a body that is a struct, directly or behind pointers, `writeArg` returns the
error "must Exported" (and with it no map) exactly when some field has an unexported name,
wherever it stands; when every field is exported it returns a map and no error. -/
theorem C4_writeArg_must_exported (env : Env) (body : Value) (tn : String)
    (ft : List (String × GoType)) (n : String) (fs : List Field)
    (h : stripPtr body = some (.struct tn ft, .struct n fs)) :
    (writeArg env body = .error "must Exported" ↔ ∃ f ∈ fs, IsExported env f.1 = false) ∧
    ((∀ f ∈ fs, IsExported env f.1 = true) → ∃ args, writeArg env body = .ok args) := by
  rw [writeArg_struct env body tn ft n fs h]
  have hall : (∀ f ∈ fs, IsExported env f.1 = true) → ∃ args,
      (match writeArgFields env fs 0 [] with
        | .ok args => Except.ok (mapSet args (.str "n") (.int .int fs.length))
        | .error err => .error err) = (.ok args : Except String GoMap) := by
    intro hexp
    rw [writeArgFields_exported env fs 0 [] hexp (by intro p hp; cases hp)]
    exact ⟨_, rfl⟩
  refine ⟨⟨?_, ?_⟩, hall⟩
  · intro herr
    by_contra hno
    have hexp : ∀ f ∈ fs, IsExported env f.1 = true := by
      intro f hf
      cases hfe : IsExported env f.1 with
      | true => rfl
      | false => exact absurd ⟨f, hf, hfe⟩ hno
    obtain ⟨args, hargs⟩ := hall hexp
    rw [hargs] at herr
    cases herr
  · intro hex
    rw [writeArgFields_unexported env fs 0 [] hex]

/-- Witness of C4: `&&T{A: 1, b: 2}`. -/
theorem C4_writeArg_must_exported_witness :
    (writeArg testEnv hiddenField = .error "must Exported" ↔
      ∃ f ∈ [("A", GoType.int .int, Value.int .int 1), ("b", GoType.int .int, Value.int .int 2)],
        IsExported testEnv f.1 = false) ∧
    ((∀ f ∈ [("A", GoType.int .int, Value.int .int 1), ("b", GoType.int .int, Value.int .int 2)],
        IsExported testEnv f.1 = true) → ∃ args, writeArg testEnv hiddenField = .ok args) :=
  C4_writeArg_must_exported testEnv hiddenField "T" [("A", .int .int), ("b", .int .int)] "T"
    [("A", .int .int, .int .int 1), ("b", .int .int, .int .int 2)] rfl

theorem writeArg_struct_exported (env : Env) (body : Value) (tn : String)
    (ft : List (String × GoType)) (n : String) (fs : List Field)
    (h : stripPtr body = some (.struct tn ft, .struct n fs))
    (hexp : ∀ f ∈ fs, IsExported env f.1 = true) :
    writeArg env body =
      .ok ((fs.enum.map fun p => (Key.int .int (p.1 + 1), p.2.2.2)) ++
        [(.str "n", .int .int fs.length)]) := by
  rw [writeArg_struct env body tn ft n fs h,
    writeArgFields_exported env fs 0 [] hexp (by intro p hp; cases hp)]
  simp only [List.nil_append, List.enum]
  rw [mapSet_fresh]
  intro p hp
  simp only [List.mem_map] at hp
  obtain ⟨q, _, hq⟩ := hp
  rw [← hq]
  simp

/-- C10: the successful result of `writeArg` is determined by the shape of the body.  For a
struct with `N` fields, all exported, reached directly or behind pointers, the map is the
entry `i ↦ value of field i` for `i = 1..N` in declaration order (keys of Go type `int`)
followed by `"n" ↦ N`; for every other body `x` the map is `1 ↦ x`, `"n" ↦ 1`. -/
theorem C10_writeArg_shape (env : Env) (body : Value) :
    (∀ tn ft n fs, stripPtr body = some (.struct tn ft, .struct n fs) →
      (∀ f ∈ fs, IsExported env f.1 = true) →
      writeArg env body =
        .ok ((fs.enum.map fun p => (Key.int .int (p.1 + 1), p.2.2.2)) ++
          [(.str "n", .int .int fs.length)])) ∧
    ((∀ tn ft n fs, stripPtr body ≠ some (.struct tn ft, .struct n fs)) →
      writeArg env body = .ok [(.int .int 1, body), (.str "n", .int .int 1)]) := by
  constructor
  · intro tn ft n fs h hexp
    exact writeArg_struct_exported env body tn ft n fs h hexp
  · intro hns
    unfold writeArg
    split
    · next _ _ _ _ fs heq => exact absurd heq (hns _ _ _ _)
    · simp [mapSet]

/-! ## `readArg` after `writeArg` -/

theorem mapGet_none (m : GoMap) (k : Key) (h : ∀ p ∈ m, p.1 ≠ k) : mapGet m k = none := by
  induction m with
  | nil => rfl
  | cons p m ih =>
    obtain ⟨k', v'⟩ := p
    have hk : k' ≠ k := h (k', v') (List.mem_cons_self _ _)
    simp only [mapGet, if_neg hk]
    exact ih (fun q hq => h q (List.mem_cons_of_mem _ hq))

theorem wrap_of_inRange (k : IntKind) (n : Int) (h : k.inRange n = true) : wrap k n = n := by
  cases k <;> simp [IntKind.inRange, IntKind.signed, IntKind.bits] at h <;>
    simp [wrap, IntKind.signed, IntKind.bits] <;> omega

/-- C3 (as amended): when the frame decodes to an envelope with string `service` and `func`,
`ReadRequestHeader` succeeds and stores both; without a `session` key it sets `NoResp` and
leaves `Seq` alone; with a `session` key holding an integer `s` of any kind it leaves
`NoResp` as it was and sets `Seq` to `s` converted to the kind of `Seq` (`wrap`), which is
`s` itself whenever `s` is in the range of that kind. -/
theorem C3_ReadRequestHeader_session (env : Env) (c : mpServerCodec) (r : Request)
    (rwc1 : Conn) (b : List Byte) (m : GoMap) (service method : String)
    (hframe : readFrame c.rwc = (rwc1, .ok b))
    (hdec : env.Unmarshal b = .ok (.map m))
    (hs : mapGet m (.str "service") = some (.str service))
    (hf : mapGet m (.str "func") = some (.str method)) :
    (mapGet m (.str "session") = none →
      mpServerCodec.ReadRequestHeader env c r =
        .ret ({ c with rwc := rwc1, req := m },
          { Service := service, Method := method, Seq := r.Seq, NoResp := true }) none) ∧
    (∀ (k : IntKind) (s : Int), mapGet m (.str "session") = some (.int k s) →
      mpServerCodec.ReadRequestHeader env c r =
        .ret ({ c with rwc := rwc1, req := m },
          { Service := service, Method := method, Seq := wrap env.seqKind s,
            NoResp := r.NoResp }) none ∧
      (env.seqKind.inRange s = true → wrap env.seqKind s = s)) := by
  constructor
  · intro hsess
    simp [mpServerCodec.ReadRequestHeader, hframe, hdec, mpServerCodec.readEnvelope, hsess,
      mpServerCodec.readNames, hs, hf]
  · intro k s hsess
    refine ⟨?_, wrap_of_inRange _ _⟩
    simp [mpServerCodec.ReadRequestHeader, hframe, hdec, mpServerCodec.readEnvelope, hsess,
      mpServerCodec.readNames, hs, hf, typeOf, convertible, convert, Value.asInt]

/-- C5: when the frame decodes to an envelope whose `session` converts to the kind of `Seq`
and whose `ok` is `false`, `ReadResponseHeader` returns no error, stores the converted
`session` in `Seq`, and sets `Error` to the string under `data`, or to "call error" when
`data` is absent or not a string. -/
theorem C5_ReadResponseHeader_not_ok (env : Env) (c : mpClientCodec) (r : Response)
    (rwc1 : Conn) (b : List Byte) (m : GoMap) (sv : Value) (t : GoType)
    (hframe : readFrame c.rwc = (rwc1, .ok b))
    (hdec : env.Unmarshal b = .ok (.map m))
    (hsess : mapGet m (.str "session") = some sv)
    (ht : typeOf sv = some t)
    (hconv : convertible t (.int env.seqKind) = true)
    (hok : mapGet m (.str "ok") = some (.bool false)) :
    mpClientCodec.ReadResponseHeader env c r =
      .ret ({ c with rwc := rwc1, resp := m },
        { Seq := (convert sv (.int env.seqKind)).asInt,
          Error := match mapGet m (.str "data") with
            | some (.str data) => data
            | _ => "call error" }) none := by
  simp only [mpClientCodec.ReadResponseHeader, hframe, hdec, mpClientCodec.readEnvelope, hsess,
    ht, hconv, if_true, mpClientCodec.readOk, hok, Bool.not_false]
  cases hd : mapGet m (.str "data") with
  | none => rfl
  | some d => cases d <;> rfl

/-- C6 (what the code does): with an `args` entry that is a map and a body that is neither
nil nor a pointer, `ReadRequestBody` does not return an error: `readArg` calls `Elem` on a
non-pointer `reflect.Value` and panics. -/
theorem C6_ReadRequestBody_non_pointer_panics (env : Env) (c : mpServerCodec) (body : Value)
    (args : GoMap) (hnil : body.isNil = false) (hptr : body.isPtr = false)
    (hargs : mapGet c.req (.str "args") = some (.map args)) :
    mpServerCodec.ReadRequestBody env c body = .panic panicElem := by
  simp only [mpServerCodec.ReadRequestBody, hnil, hargs]
  cases body <;> simp_all [Value.isPtr, Value.isNil, readArg]

/-- Witness of C3 (as amended): the `Print` call without `session` and the `Add` call with
`session` 7, both read into a zero-valued header. -/
theorem C3_ReadRequestHeader_session_witness :
    (∃ c', mpServerCodec.ReadRequestHeader testEnv srvPrint request0 =
      .ret (c', { Service := "cluster_service", Method := "Print", Seq := 0, NoResp := true })
        none) ∧
    (∃ c', mpServerCodec.ReadRequestHeader testEnv srvAdd request0 =
      .ret (c', { Service := "cluster_service", Method := "Add", Seq := 7, NoResp := false })
        none) :=
  ⟨⟨_, (C3_ReadRequestHeader_session testEnv srvPrint request0 _ _ _ _ _ rfl rfl rfl rfl).1 rfl⟩,
   ⟨_, ((C3_ReadRequestHeader_session testEnv srvAdd request0 _ _ _ _ _ rfl rfl rfl rfl).2
      .int8 7 rfl).1⟩⟩

/-- Counterexample to C3 as stated.  A header that held `NoResp = true` before the call still
holds `NoResp = true` after an envelope with `session` 7 has been read; and with `Seq` a
`uint64`, the `session` value -1 (an `int8`) is stored as 18446744073709551615. -/
theorem C3_counterexample :
    mpServerCodec.ReadRequestHeader testEnv srvAdd
        { Service := "", Method := "", Seq := 0, NoResp := true } =
      .ret ({ rwc := emptyConn,
              req := [(.str "service", .str "cluster_service"), (.str "func", .str "Add"),
                (.str "session", .int .int8 7)],
              resp := [], closed := false },
        { Service := "cluster_service", Method := "Add", Seq := 7, NoResp := true }) none ∧
    mpServerCodec.ReadRequestHeader testEnv srvNeg request0 =
      .ret ({ rwc := emptyConn,
              req := [(.str "service", .str "cluster_service"), (.str "func", .str "Add"),
                (.str "session", .int .int8 (-1))],
              resp := [], closed := false },
        { Service := "cluster_service", Method := "Add", Seq := 18446744073709551615,
          NoResp := false }) none :=
  ⟨rfl, rfl⟩

/-- Witness of C5: a failure envelope whose `data` is an integer. -/
theorem C5_ReadResponseHeader_not_ok_witness :
    mpClientCodec.ReadResponseHeader testEnv cliFail response0 =
      .ret ({ rwc := emptyConn,
              req := [],
              resp := [(.str "session", .int .int8 7), (.str "ok", .bool false),
                (.str "data", .int .int8 42)],
              closed := false },
        { Seq := 7, Error := "call error" }) none :=
  C5_ReadResponseHeader_not_ok testEnv cliFail response0 _ _ _ _ _ rfl rfl rfl rfl rfl rfl

/-- Witness of C6 (what the code does): the body `Args{}` passed by value. -/
theorem C6_ReadRequestBody_non_pointer_panics_witness :
    mpServerCodec.ReadRequestBody testEnv srvDecoded (Args 0 0) = .panic panicElem :=
  C6_ReadRequestBody_non_pointer_panics testEnv srvDecoded (Args 0 0) _ rfl rfl rfl

/-! ## `WriteResponse` -/

theorem writeArgFields_error (env : Env) (fs : List Field) :
    ∀ (i : Nat) (args : GoMap) (e : String), writeArgFields env fs i args = .error e →
      e = "must Exported" := by
  induction fs with
  | nil => intro i args e h; simp [writeArgFields] at h
  | cons f fs ih =>
    intro i args e h
    obtain ⟨name, ty, val⟩ := f
    cases hname : IsExported env name with
    | false =>
      simp only [writeArgFields, hname] at h
      simp only [Bool.false_eq_true, if_false, Except.error.injEq] at h
      exact h.symm
    | true =>
      simp only [writeArgFields, hname, if_true] at h
      exact ih _ _ _ h

theorem writeArg_error (env : Env) (body : Value) (e : String)
    (h : writeArg env body = .error e) : e = "must Exported" := by
  unfold writeArg at h
  split at h
  · next fs _ =>
    cases hf : writeArgFields env fs 0 [] with
    | ok args => simp [hf] at h
    | error err =>
      simp only [hf, Except.error.injEq] at h
      subst h
      exact writeArgFields_error env fs 0 [] _ hf
  · cases h

/-- C8: for a response header with a non-empty `Error`, the envelope that `WriteResponse`
hands to the serializer is exactly `session ↦ Seq`, `ok ↦ false`, `data ↦ Error`, whatever
the body (it is not packed): when the serializer yields `b`, one frame holding `b` is written
and no error returned, when it fails its error is returned.  For every header and body the
envelope (kept in `resp`) holds `Seq` under `session`. -/
theorem C8_WriteResponse_error (env : Env) (c : mpServerCodec) (r : Response) (body : Value) :
    (r.Error ≠ "" →
      (∀ b, env.Marshal (.map [(.str "session", .int env.seqKind r.Seq), (.str "ok", .bool false),
          (.str "data", .str r.Error)]) = .ok b →
        mpServerCodec.WriteResponse env c r body =
          ({ c with
              resp := [(.str "session", .int env.seqKind r.Seq), (.str "ok", .bool false),
                (.str "data", .str r.Error)],
              rwc := { c.rwc with buf := c.rwc.buf ++ (putUint32 (toUint32 b.length) ++ b) } },
            none)) ∧
      (∀ err, env.Marshal (.map [(.str "session", .int env.seqKind r.Seq),
          (.str "ok", .bool false), (.str "data", .str r.Error)]) = .error err →
        mpServerCodec.WriteResponse env c r body =
          ({ c with
              resp := [(.str "session", .int env.seqKind r.Seq), (.str "ok", .bool false),
                (.str "data", .str r.Error)] },
            some err))) ∧
    mapGet (mpServerCodec.WriteResponse env c r body).1.resp (.str "session") =
      some (.int env.seqKind r.Seq) := by
  constructor
  · intro hErr
    have hE : mpServerCodec.buildResponse env r body =
        [(.str "session", .int env.seqKind r.Seq), (.str "ok", .bool false),
          (.str "data", .str r.Error)] := by
      simp [mpServerCodec.buildResponse, hErr, mapSet]
    constructor
    · intro b hb
      simp only [mpServerCodec.WriteResponse, hE, hb, writeFrame_buffer]
    · intro err hb
      simp only [mpServerCodec.WriteResponse, hE, hb]
  · have hS : mapGet (mpServerCodec.buildResponse env r body) (.str "session") =
        some (.int env.seqKind r.Seq) := by
      unfold mpServerCodec.buildResponse
      by_cases hErr : r.Error = ""
      · cases hb : body.isNil
        · cases hw : writeArg env body <;> simp [hErr, hb, hw, mapSet, mapGet]
        · simp [hErr, hb, mapSet, mapGet]
      · simp [hErr, mapSet, mapGet]
    simp only [mpServerCodec.WriteResponse]
    cases hm : env.Marshal (Value.map (mpServerCodec.buildResponse env r body)) with
    | error err => simpa using hS
    | ok b => simpa [writeFrame_buffer] using hS

/-- Witness of C8: the header `Seq = 7`, `Error = "boom"` with the unpackable body
`&&T{A: 1, b: 2}`. -/
theorem C8_WriteResponse_error_witness :
    mpServerCodec.WriteResponse testEnv server0 { Seq := 7, Error := "boom" } hiddenField =
      ({ server0 with
          resp := [(.str "session", .int .uint64 7), (.str "ok", .bool false),
            (.str "data", .str "boom")],
          rwc := { emptyConn with buf := [24, 0, 0, 0, 0x83, 0xa7, 115, 101, 115, 115, 105, 111,
            110, 7, 0xa2, 111, 107, 0xc2, 0xa4, 100, 97, 116, 97, 0xa4, 98, 111, 111, 109] } },
        none) :=
  ((C8_WriteResponse_error testEnv server0 { Seq := 7, Error := "boom" } hiddenField).1
    (by decide)).1 _ rfl

/-- C9: for a response header with an empty `Error` and a non-nil body that `writeArg`
refuses, the refusal is "must Exported" and `WriteResponse` does not return it: the envelope
handed to the serializer is `session ↦ Seq`, `ok ↦ false`, `data ↦ "must Exported"` (a string,
no argument map); when the serializer yields `b`, one frame holding `b` is written and no
error is returned, when it fails its error is returned. -/
theorem C9_WriteResponse_pack_failure (env : Env) (c : mpServerCodec) (r : Response)
    (body : Value) (e : String) (hErr : r.Error = "") (hnil : body.isNil = false)
    (hpack : writeArg env body = .error e) :
    e = "must Exported" ∧
    (∀ b, env.Marshal (.map [(.str "session", .int env.seqKind r.Seq), (.str "ok", .bool false),
        (.str "data", .str e)]) = .ok b →
      mpServerCodec.WriteResponse env c r body =
        ({ c with
            resp := [(.str "session", .int env.seqKind r.Seq), (.str "ok", .bool false),
              (.str "data", .str e)],
            rwc := { c.rwc with buf := c.rwc.buf ++ (putUint32 (toUint32 b.length) ++ b) } },
          none)) ∧
    (∀ err, env.Marshal (.map [(.str "session", .int env.seqKind r.Seq),
        (.str "ok", .bool false), (.str "data", .str e)]) = .error err →
      mpServerCodec.WriteResponse env c r body =
        ({ c with
            resp := [(.str "session", .int env.seqKind r.Seq), (.str "ok", .bool false),
              (.str "data", .str e)] },
          some err)) := by
  have hE : mpServerCodec.buildResponse env r body =
      [(.str "session", .int env.seqKind r.Seq), (.str "ok", .bool false),
        (.str "data", .str e)] := by
    simp [mpServerCodec.buildResponse, hErr, hnil, hpack, mapSet]
  refine ⟨writeArg_error env body e hpack, ?_, ?_⟩
  · intro b hb
    simp only [mpServerCodec.WriteResponse, hE, hb, writeFrame_buffer]
  · intro err hb
    simp only [mpServerCodec.WriteResponse, hE, hb]

/-- Witness of C9: the header `Seq = 7`, `Error = ""` with the body `&&T{A: 1, b: 2}`. -/
theorem C9_WriteResponse_pack_failure_witness :
    "must Exported" = "must Exported" ∧
    mpServerCodec.WriteResponse testEnv server0 { Seq := 7, Error := "" } hiddenField =
      ({ server0 with
          resp := [(.str "session", .int .uint64 7), (.str "ok", .bool false),
            (.str "data", .str "must Exported")],
          rwc := { emptyConn with buf := [33, 0, 0, 0, 0x83, 0xa7, 115, 101, 115, 115, 105,
            111, 110, 7, 0xa2, 111, 107, 0xc2, 0xa4, 100, 97, 116, 97, 0xad, 109, 117, 115, 116,
            32, 69, 120, 112, 111, 114, 116, 101, 100] } },
        none) :=
  have h := C9_WriteResponse_pack_failure testEnv server0 { Seq := 7, Error := "" } hiddenField
    "must Exported" rfl rfl rfl
  ⟨h.1, h.2.1 _ rfl⟩

/-! ## The `Add` scenario, end to end -/

theorem wrap_seven (k : IntKind) : wrap k 7 = 7 := by
  cases k <;> rfl

/-- C7: the `Add` scenario over one loopback stream, for every environment in which `A` and
`B` are upper case and whose serializer round-trips the two envelopes as `wire` says
(strings, booleans and map structure preserved, small integers back as `int8`).
`WriteRequest` for `cluster_service.Add`, `Seq` 7, body `Args{A: 1, B: 2}` succeeds;
`ReadRequestHeader` then yields that header (`Seq` 7, `NoResp` false) and `ReadRequestBody`
into a zero `Args` yields `A = 1`, `B = 2`; `WriteResponse` for `Seq` 7, no error, body 3
succeeds; `ReadResponseHeader` then yields `Seq` 7 with an empty `Error` and
`ReadResponseBody` into an `int` yields 3. -/
theorem C7_add_scenario (env : Env) (hA : env.isUpper 'A' = true) (hB : env.isUpper 'B' = true)
    (hreq : RoundTrips env (.map (addEnvelope env)))
    (hres : RoundTrips env (.map (addResult env))) :
    ∃ (c1 : mpClientCodec) (s1 s2 : mpServerCodec) (c2 : mpClientCodec),
      mpClientCodec.WriteRequest env client0 addRequest (Args 1 2) = (c1, none) ∧
      c1.req = addEnvelope env ∧
      mpServerCodec.ReadRequestHeader env { server0 with rwc := c1.rwc } request0 =
        .ret (s1, addRequest) none ∧
      mpServerCodec.ReadRequestBody env s1 (.ptr ArgsT (Args 0 0)) =
        .ret (.ptr ArgsT (Args 1 2)) none ∧
      mpServerCodec.WriteResponse env s1 { Seq := 7, Error := "" } (.int .int 3) = (s2, none) ∧
      s2.resp = addResult env ∧
      mpClientCodec.ReadResponseHeader env { c1 with rwc := s2.rwc } response0 =
        .ret (c2, { Seq := 7, Error := "" }) none ∧
      mpClientCodec.ReadResponseBody env c2 (.ptr (.int .int) (.int .int 0)) =
        .ret (.ptr (.int .int) (.int .int 3)) none := by
  obtain ⟨b1, hm1, hl1, hu1⟩ := hreq
  obtain ⟨b2, hm2, hl2, hu2⟩ := hres
  have hEA : IsExported env "A" = true := hA
  have hEB : IsExported env "B" = true := hB
  have hw1 : wire (.map (addEnvelope env)) =
      .map [(.str "args", .map [(.int .int8 1, .int .int8 1), (.int .int8 2, .int .int8 2),
          (.str "n", .int .int8 2)]),
        (.str "service", .str "cluster_service"), (.str "func", .str "Add"),
        (.str "session", .int .int8 7)] := rfl
  have hw2 : wire (.map (addResult env)) =
      .map [(.str "session", .int .int8 7), (.str "ok", .bool true),
        (.str "data", .map [(.int .int8 1, .int .int8 3), (.str "n", .int .int8 1)])] := rfl
  rw [hw1] at hu1
  rw [hw2] at hu2
  have hpack : writeArg env (Args 1 2) = .ok [(.int .int 1, .int .int 1),
      (.int .int 2, .int .int 2), (.str "n", .int .int 2)] := by
    simp [writeArg, Args, stripPtr, writeArgFields, hEA, hEB, mapSet]
  have hpack3 : writeArg env (.int .int 3) = .ok [(.int .int 1, .int .int 3),
      (.str "n", .int .int 1)] := by
    simp [writeArg, stripPtr, mapSet]
  refine ⟨{ rwc := { emptyConn with buf := putUint32 (toUint32 b1.length) ++ b1 },
            req := addEnvelope env, resp := [], closed := false },
    { rwc := emptyConn,
      req := [(.str "args", .map [(.int .int8 1, .int .int8 1), (.int .int8 2, .int .int8 2),
          (.str "n", .int .int8 2)]),
        (.str "service", .str "cluster_service"), (.str "func", .str "Add"),
        (.str "session", .int .int8 7)],
      resp := [], closed := false },
    { rwc := { emptyConn with buf := putUint32 (toUint32 b2.length) ++ b2 },
      req := [(.str "args", .map [(.int .int8 1, .int .int8 1), (.int .int8 2, .int .int8 2),
          (.str "n", .int .int8 2)]),
        (.str "service", .str "cluster_service"), (.str "func", .str "Add"),
        (.str "session", .int .int8 7)],
      resp := addResult env, closed := false },
    { rwc := emptyConn,
      req := addEnvelope env,
      resp := [(.str "session", .int .int8 7), (.str "ok", .bool true),
          (.str "data", .map [(.int .int8 1, .int .int8 3), (.str "n", .int .int8 1)])],
      closed := false },
    ?_, rfl, ?_, ?_, ?_, rfl, ?_, ?_⟩
  · have henv : mapSet (mapSet (mapSet (mapSet [] (.str "args") (.map [(.int .int 1, .int .int 1),
        (.int .int 2, .int .int 2), (.str "n", .int .int 2)])) (.str "service")
        (.str "cluster_service")) (.str "func") (.str "Add")) (.str "session")
        (.int env.seqKind 7) = addEnvelope env := rfl
    simp only [mpClientCodec.WriteRequest, Value.isNil, Args, Bool.not_false, if_true]
    rw [show Value.struct "Args" [("A", .int .int, .int .int 1), ("B", .int .int, .int .int 2)]
      = Args 1 2 from rfl, hpack]
    simp only [mpClientCodec.finishRequest, addRequest, Bool.not_false, if_true, client0]
    simp only [henv, hm1, writeFrame_buffer]
    rfl
  · have hf : readFrame (Conn.mk (putUint32 (toUint32 b1.length) ++ b1) 0 none) =
        (emptyConn, .ok b1) :=
      readFrame_frame _ b1 [] hl1 (by simp)
    simp only [mpServerCodec.ReadRequestHeader, server0, emptyConn, client0]
    simp only [hf, hu1]
    simp [mpServerCodec.readEnvelope, mapGet, typeOf, convertible, convert, Value.asInt,
      wrap_seven, mpServerCodec.readNames, request0, addRequest, emptyConn]
  · simp [mpServerCodec.ReadRequestBody, Value.isNil, server0, mapGet, readArg, ArgsT, Args,
      readArgFields, wrap, IntKind.signed, IntKind.bits, hEA, hEB, convertArg, stripPtr,
      convertArgLoop, GoType.beq, convertible, convert, setField]
  · have henv : mpServerCodec.buildResponse env { Seq := 7, Error := "" } (.int .int 3) =
        addResult env := by
      simp [mpServerCodec.buildResponse, Value.isNil, hpack3, mapSet, addResult]
    simp only [mpServerCodec.WriteResponse, henv, hm2, writeFrame_buffer, server0, emptyConn]
    rfl
  · have hf : readFrame (Conn.mk (putUint32 (toUint32 b2.length) ++ b2) 0 none) =
        (emptyConn, .ok b2) :=
      readFrame_frame _ b2 [] hl2 (by simp)
    simp only [mpClientCodec.ReadResponseHeader, server0, emptyConn, client0]
    simp only [hf, hu2]
    simp [mpClientCodec.readEnvelope, mapGet, typeOf, convertible, convert, Value.asInt,
      wrap_seven, mpClientCodec.readOk, response0, emptyConn]
  · simp [mpClientCodec.ReadResponseBody, Value.isNil, Value.isPtr, client0, mapGet, readArg,
      readArgSingle, typeOf, convertArg, stripPtr, convertArgLoop, GoType.beq, convertible,
      convert, setField, wrap, IntKind.signed, IntKind.bits]

/-- Witness of C7: the scenario in `testEnv`, whose serializer is the msgpack encoder and
decoder of this file. -/
theorem C7_add_scenario_witness :
    ∃ (c1 : mpClientCodec) (s1 s2 : mpServerCodec) (c2 : mpClientCodec),
      mpClientCodec.WriteRequest testEnv client0 addRequest (Args 1 2) = (c1, none) ∧
      c1.req = addEnvelope testEnv ∧
      mpServerCodec.ReadRequestHeader testEnv { server0 with rwc := c1.rwc } request0 =
        .ret (s1, addRequest) none ∧
      mpServerCodec.ReadRequestBody testEnv s1 (.ptr ArgsT (Args 0 0)) =
        .ret (.ptr ArgsT (Args 1 2)) none ∧
      mpServerCodec.WriteResponse testEnv s1 { Seq := 7, Error := "" } (.int .int 3) =
        (s2, none) ∧
      s2.resp = addResult testEnv ∧
      mpClientCodec.ReadResponseHeader testEnv { c1 with rwc := s2.rwc } response0 =
        .ret (c2, { Seq := 7, Error := "" }) none ∧
      mpClientCodec.ReadResponseBody testEnv c2 (.ptr (.int .int) (.int .int 0)) =
        .ret (.ptr (.int .int) (.int .int 3)) none :=
  C7_add_scenario testEnv rfl rfl ⟨_, rfl, by decide, rfl⟩ ⟨_, rfl, by decide, rfl⟩

/-- Witness of C10: the struct `Args{A: 1, B: 2}` and the integer 3. -/
theorem C10_writeArg_shape_witness :
    writeArg testEnv (Args 1 2) =
      .ok [(.int .int 1, .int .int 1), (.int .int 2, .int .int 2), (.str "n", .int .int 2)] ∧
    writeArg testEnv (.int .int 3) = .ok [(.int .int 1, .int .int 3), (.str "n", .int .int 1)] :=
  ⟨(C10_writeArg_shape testEnv (Args 1 2)).1 "Args" [("A", .int .int), ("B", .int .int)] "Args"
      [("A", .int .int, .int .int 1), ("B", .int .int, .int .int 2)] rfl (by decide),
   (C10_writeArg_shape testEnv (.int .int 3)).2 (fun _ _ _ _ h => by cases h)⟩

/-! ## Frame transport: length field and short reads -/

/-- C11 (as amended): `writeFrame` reports no error and appends exactly `4 + len(payload)`
bytes: the little-endian encoding of the 32-bit length field, then the payload unchanged.
The length field holds `len(payload)` modulo 2^32; it equals `len(payload)` for every payload
shorter than 2^32 bytes. -/
theorem C11_writeFrame_length_field (w : Conn) (payload : List Byte) :
    writeFrame w payload =
      ({ w with buf := w.buf ++ (putUint32 (payload.length % 2 ^ 32) ++ payload) }, none) ∧
    (putUint32 (payload.length % 2 ^ 32) ++ payload).length = 4 + payload.length ∧
    getUint32 (putUint32 (payload.length % 2 ^ 32)) = payload.length % 2 ^ 32 ∧
    (payload.length < 2 ^ 32 →
      getUint32 (putUint32 (payload.length % 2 ^ 32)) = payload.length) := by
  refine ⟨writeFrame_buffer w payload, ?_, ?_, ?_⟩
  · rw [List.length_append, putUint32_length]
  · exact getUint32_putUint32 _ (Nat.mod_lt _ (by decide))
  · intro h
    rw [Nat.mod_eq_of_lt h]
    exact getUint32_putUint32 _ h

/-- Witness of C11 (as amended): the payload `[7]`, whose length field is 1. -/
theorem C11_writeFrame_length_field_witness :
    getUint32 (putUint32 (([7] : List Byte).length % 2 ^ 32)) = ([7] : List Byte).length :=
  (C11_writeFrame_length_field emptyConn [7]).2.2.2 (by decide)

/-- Counterexample to C11 as stated: a payload of 2^32 zero bytes.  The four bytes that
`writeFrame` puts in front of it are zero, a length field of value 0, while the payload that
follows is 4294967296 bytes long. -/
theorem C11_counterexample :
    (List.replicate 4294967296 (0 : Byte)).length = 4294967296 ∧
    (writeFrame emptyConn (List.replicate 4294967296 0)).1.buf.take 4 = [0, 0, 0, 0] ∧
    getUint32 [0, 0, 0, 0] = 0 := by
  have hl : (List.replicate 4294967296 (0 : Byte)).length = 4294967296 :=
    List.length_replicate _ _
  refine ⟨hl, ?_, rfl⟩
  rw [writeFrame_buffer, hl]
  rfl

/-- C12: `readFrame` on a stream holding the bytes `s`, with `L` the little-endian value of
the first four bytes.  It returns an error exactly when `s` has fewer than 4 bytes or fewer
than `4 + L` bytes; otherwise it returns the `L` bytes that follow the length field and
leaves the stream at byte `4 + L`, where the next frame starts. -/
theorem C12_readFrame_outcomes (r : Conn) :
    ((∃ e, (readFrame r).2 = .error e) ↔
      (r.buf.length < 4 ∨ r.buf.length < 4 + getUint32 (r.buf.take 4))) ∧
    (4 + getUint32 (r.buf.take 4) ≤ r.buf.length →
      readFrame r =
        ({ r with buf := r.buf.drop (4 + getUint32 (r.buf.take 4)) },
          .ok ((r.buf.drop 4).take (getUint32 (r.buf.take 4))))) := by
  by_cases h4 : 4 ≤ r.buf.length
  · by_cases hL : getUint32 (r.buf.take 4) ≤ (r.buf.drop 4).length
    · have hL' : 4 + getUint32 (r.buf.take 4) ≤ r.buf.length := by
        rw [List.length_drop] at hL
        omega
      have hres : readFrame r =
          ({ r with buf := r.buf.drop (4 + getUint32 (r.buf.take 4)) },
            .ok ((r.buf.drop 4).take (getUint32 (r.buf.take 4)))) := by
        have hL2 : getUint32 (r.buf.take 4) ≤ r.buf.length - 4 := by omega
        simp [readFrame, Conn.ReadFull, h4, hL2, Nat.add_comm]
      refine ⟨?_, fun _ => hres⟩
      rw [hres]
      constructor
      · rintro ⟨e, he⟩
        cases he
      · intro h
        omega
    · have hL' : r.buf.length < 4 + getUint32 (r.buf.take 4) := by
        rw [List.length_drop] at hL
        omega
      refine ⟨?_, fun h => absurd h (by omega)⟩
      constructor
      · intro _
        exact Or.inr hL'
      · intro _
        simp only [readFrame, Conn.ReadFull, h4, if_true, hL, if_false]
        exact ⟨_, rfl⟩
  · refine ⟨?_, fun h => absurd h (by omega)⟩
    constructor
    · intro _
      exact Or.inl (by omega)
    · intro _
      simp only [readFrame, Conn.ReadFull, h4, if_false]
      exact ⟨_, rfl⟩

/-- Witness of C12: a stream that holds the frame of `[7]` followed by the byte `9`. -/
theorem C12_readFrame_outcomes_witness :
    readFrame { emptyConn with buf := [1, 0, 0, 0, 7, 9] } =
      ({ emptyConn with buf := [9] }, .ok [7]) :=
  (C12_readFrame_outcomes { emptyConn with buf := [1, 0, 0, 0, 7, 9] }).2 (by decide)

/-! ## The client codec: result header and body, call envelope, close -/

theorem typeOf_eq_none (v : Value) : typeOf v = none ↔ v = .nil := by
  cases v <;> simp [typeOf]

/-- C13 (what the code does): with the frame decoded to the envelope `m`.  When `session`
holds nil, `ReadResponseHeader` neither succeeds nor returns an error: the call of
`ConvertibleTo` on the nil `reflect.Type` panics.  For every other envelope it returns an
error exactly when `session` is absent, or its type does not convert to the kind of `Seq`,
or `ok` is absent, or `ok` is not a boolean; otherwise it returns no error and `Seq` holds
the converted `session`. -/
theorem C13_ReadResponseHeader_outcomes (env : Env) (c : mpClientCodec) (r : Response)
    (rwc1 : Conn) (b : List Byte) (m : GoMap)
    (hframe : readFrame c.rwc = (rwc1, .ok b))
    (hdec : env.Unmarshal b = .ok (.map m)) :
    (mapGet m (.str "session") = some .nil →
      mpClientCodec.ReadResponseHeader env c r = .panic panicNilType) ∧
    (mapGet m (.str "session") ≠ some .nil →
      ((∃ st e, mpClientCodec.ReadResponseHeader env c r = .ret st (some e)) ↔
        badResult env m) ∧
      (¬ badResult env m →
        ∃ sv st, mapGet m (.str "session") = some sv ∧
          mpClientCodec.ReadResponseHeader env c r = .ret st none ∧
          st.2.Seq = (convert sv (.int env.seqKind)).asInt)) := by
  have hunfold : mpClientCodec.ReadResponseHeader env c r =
      mpClientCodec.readEnvelope env { c with rwc := rwc1 } r (.map m) := by
    simp only [mpClientCodec.ReadResponseHeader, hframe, hdec]
  rw [hunfold]
  constructor
  · intro hs
    simp [mpClientCodec.readEnvelope, hs, typeOf]
  · intro hs
    cases hsess : mapGet m (.str "session") with
    | none =>
      have hbad : badResult env m := Or.inl hsess
      refine ⟨⟨fun _ => hbad, fun _ => ?_⟩, fun h => absurd hbad h⟩
      simp only [mpClientCodec.readEnvelope, hsess]
      exact ⟨_, _, rfl⟩
    | some sv =>
      cases ht : typeOf sv with
      | none =>
        rw [typeOf_eq_none] at ht
        rw [hsess, ht] at hs
        exact absurd rfl hs
      | some t =>
        cases hc : convertible t (.int env.seqKind) with
        | false =>
          have hbad : badResult env m := Or.inr (Or.inl ⟨sv, t, hsess, ht, hc⟩)
          refine ⟨⟨fun _ => hbad, fun _ => ?_⟩, fun h => absurd hbad h⟩
          simp only [mpClientCodec.readEnvelope, hsess, ht, hc]
          exact ⟨_, _, rfl⟩
        | true =>
          cases hok : mapGet m (.str "ok") with
          | none =>
            have hbad : badResult env m := Or.inr (Or.inr (Or.inl hok))
            refine ⟨⟨fun _ => hbad, fun _ => ?_⟩, fun h => absurd hbad h⟩
            simp only [mpClientCodec.readEnvelope, hsess, ht, hc, if_true, mpClientCodec.readOk,
              hok]
            exact ⟨_, _, rfl⟩
          | some v =>
            by_cases hv : ∃ ok, v = .bool ok
            · obtain ⟨ok, hv⟩ := hv
              subst hv
              have hgood : ¬ badResult env m := by
                rintro (h | ⟨sv', t', h1, h2, h3⟩ | h | ⟨v', h1, h2⟩)
                · rw [hsess] at h
                  cases h
                · rw [hsess] at h1
                  cases h1
                  rw [ht] at h2
                  cases h2
                  rw [hc] at h3
                  cases h3
                · rw [hok] at h
                  cases h
                · rw [hok] at h1
                  cases h1
                  exact h2 ok rfl
              have hres : ∃ st, mpClientCodec.readEnvelope env { c with rwc := rwc1 } r (.map m) =
                  .ret st none ∧ st.2.Seq = (convert sv (.int env.seqKind)).asInt := by
                simp only [mpClientCodec.readEnvelope, hsess, ht, hc, if_true,
                  mpClientCodec.readOk, hok]
                cases ok
                · cases hd : mapGet m (.str "data") with
                  | none => exact ⟨_, rfl, rfl⟩
                  | some d => cases d <;> exact ⟨_, rfl, rfl⟩
                · exact ⟨_, rfl, rfl⟩
              obtain ⟨st, hst, hseq⟩ := hres
              refine ⟨⟨fun h => ?_, fun h => absurd h hgood⟩, fun _ => ⟨sv, st, rfl, hst, hseq⟩⟩
              obtain ⟨st', e, he⟩ := h
              rw [hst] at he
              cases he
            · have hnb : ∀ ok, v ≠ .bool ok := fun ok h => hv ⟨ok, h⟩
              have hbad : badResult env m := Or.inr (Or.inr (Or.inr ⟨v, hok, hnb⟩))
              refine ⟨⟨fun _ => hbad, fun _ => ?_⟩, fun h => absurd hbad h⟩
              simp only [mpClientCodec.readEnvelope, hsess, ht, hc, if_true, mpClientCodec.readOk,
                hok]
              exact ⟨_, _, rfl⟩

/-- Witness of C13 (what the code does): a result whose `session` is nil. -/
theorem C13_ReadResponseHeader_outcomes_witness :
    mpClientCodec.ReadResponseHeader testEnv cliNil response0 = .panic panicNilType :=
  (C13_ReadResponseHeader_outcomes testEnv cliNil response0 _ _ _ rfl rfl).1 rfl

theorem isNil_of_isPtr (body : Value) (h : body.isPtr = true) : body.isNil = false := by
  cases body <;> simp_all [Value.isPtr, Value.isNil]

/-- C14: `ReadResponseBody` decides in this order.  A nil destination: no error, nothing
changes, whatever the envelope.  A destination that is not nil and not a pointer: the
non-pointer error, whatever the envelope.  A pointer destination: the error `errMsg` when
`data` is absent or is not a map; the outcome of `readArg` on the destination and `data`
when `data` is a map. -/
theorem C14_ReadResponseBody_order (env : Env) (c : mpClientCodec) (body : Value) :
    (body.isNil = true → mpClientCodec.ReadResponseBody env c body = .ret body none) ∧
    (body.isNil = false → body.isPtr = false →
      mpClientCodec.ReadResponseBody env c body =
        .ret body (some "msgpack: attempt to decode into a non-pointer")) ∧
    (body.isPtr = true →
      (mapGet c.resp (.str "data") = none ∨
        ∃ v, mapGet c.resp (.str "data") = some v ∧ ∀ d, v ≠ .map d) →
      mpClientCodec.ReadResponseBody env c body = .ret body (some errMsg)) ∧
    (body.isPtr = true → ∀ d, mapGet c.resp (.str "data") = some (.map d) →
      mpClientCodec.ReadResponseBody env c body = readArg env body d) := by
  refine ⟨?_, ?_, ?_, ?_⟩
  · intro hn
    simp [mpClientCodec.ReadResponseBody, hn]
  · intro hn hp
    simp [mpClientCodec.ReadResponseBody, hn, hp]
  · intro hp hd
    have hn := isNil_of_isPtr body hp
    rcases hd with hd | ⟨v, hd, hv⟩
    · simp [mpClientCodec.ReadResponseBody, hn, hp, hd]
    · simp only [mpClientCodec.ReadResponseBody, hn, hp, hd]
      rfl
  · intro hp d hd
    have hn := isNil_of_isPtr body hp
    simp [mpClientCodec.ReadResponseBody, hn, hp, hd]

/-- Witness of C14: a nil destination; `Args{}` passed by value; a pointer to an `int` with
an envelope that has no `data`; the same pointer with the decoded result 3. -/
theorem C14_ReadResponseBody_order_witness :
    mpClientCodec.ReadResponseBody testEnv cliNoData .nil = .ret .nil none ∧
    mpClientCodec.ReadResponseBody testEnv cliNoData (Args 0 0) =
      .ret (Args 0 0) (some "msgpack: attempt to decode into a non-pointer") ∧
    mpClientCodec.ReadResponseBody testEnv cliNoData (.ptr (.int .int) (.int .int 0)) =
      .ret (.ptr (.int .int) (.int .int 0)) (some errMsg) ∧
    mpClientCodec.ReadResponseBody testEnv cliDecoded (.ptr (.int .int) (.int .int 0)) =
      readArg testEnv (.ptr (.int .int) (.int .int 0))
        [(.int .int8 1, .int .int8 3), (.str "n", .int .int8 1)] :=
  ⟨(C14_ReadResponseBody_order testEnv cliNoData .nil).1 rfl,
   (C14_ReadResponseBody_order testEnv cliNoData (Args 0 0)).2.1 rfl rfl,
   (C14_ReadResponseBody_order testEnv cliNoData (.ptr (.int .int) (.int .int 0))).2.2.1 rfl
     (Or.inl rfl),
   (C14_ReadResponseBody_order testEnv cliDecoded (.ptr (.int .int) (.int .int 0))).2.2.2 rfl
     _ rfl⟩

theorem finishRequest_sends (env : Env) (c : mpClientCodec) (r : Request) :
    (∀ b, env.Marshal (.map (c.req ++ callEnvelope env r none)) = .ok b →
      (∀ p ∈ c.req, p.1 ≠ .str "service" ∧ p.1 ≠ .str "func" ∧ p.1 ≠ .str "session") →
      mpClientCodec.finishRequest env c r =
        ({ c with
            req := c.req ++ callEnvelope env r none,
            rwc := { c.rwc with buf := c.rwc.buf ++ (putUint32 (toUint32 b.length) ++ b) } },
          none)) ∧
    (∀ err, env.Marshal (.map (c.req ++ callEnvelope env r none)) = .error err →
      (∀ p ∈ c.req, p.1 ≠ .str "service" ∧ p.1 ≠ .str "func" ∧ p.1 ≠ .str "session") →
      mpClientCodec.finishRequest env c r =
        ({ c with req := c.req ++ callEnvelope env r none }, some err)) := by
  have hreq : (∀ p ∈ c.req, p.1 ≠ .str "service" ∧ p.1 ≠ .str "func" ∧ p.1 ≠ .str "session") →
      (if (!r.NoResp) = true then
        mapSet (mapSet (mapSet c.req (.str "service") (.str r.Service)) (.str "func")
          (.str r.Method)) (.str "session") (.int env.seqKind r.Seq)
       else mapSet (mapSet c.req (.str "service") (.str r.Service)) (.str "func")
          (.str r.Method)) = c.req ++ callEnvelope env r none := by
    intro hk
    have h1 : mapSet c.req (.str "service") (.str r.Service) =
        c.req ++ [(.str "service", .str r.Service)] :=
      mapSet_fresh _ _ _ (fun p hp => (hk p hp).1)
    have h2 : mapSet (c.req ++ [(Key.str "service", Value.str r.Service)]) (.str "func")
        (.str r.Method) =
        c.req ++ [(Key.str "service", Value.str r.Service)] ++ [(.str "func", .str r.Method)] := by
      apply mapSet_fresh
      intro p hp
      rcases List.mem_append.mp hp with h | h
      · exact (hk p h).2.1
      · simp only [List.mem_singleton] at h
        rw [h]
        simp
    have h3 : mapSet (c.req ++ [(Key.str "service", Value.str r.Service)] ++
        [(Key.str "func", Value.str r.Method)]) (.str "session") (.int env.seqKind r.Seq) =
        c.req ++ [(Key.str "service", Value.str r.Service)] ++
          [(Key.str "func", Value.str r.Method)] ++
          [(.str "session", .int env.seqKind r.Seq)] := by
      apply mapSet_fresh
      intro p hp
      rcases List.mem_append.mp hp with h | h
      · rcases List.mem_append.mp h with h | h
        · exact (hk p h).2.2
        · simp only [List.mem_singleton] at h
          rw [h]
          simp
      · simp only [List.mem_singleton] at h
        rw [h]
        simp
    rw [h1, h2, h3]
    cases hn : r.NoResp <;> simp [callEnvelope, hn]
  constructor
  · intro b hb hk
    simp only [mpClientCodec.finishRequest, hreq hk, hb, writeFrame_buffer]
  · intro err hb hk
    simp only [mpClientCodec.finishRequest, hreq hk, hb]

/-- C15: the envelope that `WriteRequest` hands to the serializer is `callEnvelope`: for a
nil body `service`, `func` and, unless `NoResp`, `session`; for a body that `writeArg` packs
to `args`, the entry `args` in front of them.  In that envelope `service` is `r.Service`,
`func` is `r.Method`, `session` is present (with `r.Seq`) exactly when `NoResp` is false,
`args` is present (with the packed map) exactly when the body was packed, and no other key
is present. -/
theorem C15_WriteRequest_envelope (env : Env) (c : mpClientCodec) (r : Request) (body : Value) :
    (body.isNil = true → sendsEnvelope env c r body (callEnvelope env r none)) ∧
    (∀ args, body.isNil = false → writeArg env body = .ok args →
      sendsEnvelope env c r body (callEnvelope env r (some args))) ∧
    (∀ packed : Option GoMap,
      mapGet (callEnvelope env r packed) (.str "service") = some (.str r.Service) ∧
      mapGet (callEnvelope env r packed) (.str "func") = some (.str r.Method) ∧
      mapGet (callEnvelope env r packed) (.str "session") =
        (if r.NoResp then none else some (.int env.seqKind r.Seq)) ∧
      mapGet (callEnvelope env r packed) (.str "args") = packed.map Value.map ∧
      ∀ k, k ≠ .str "service" → k ≠ .str "func" → k ≠ .str "session" → k ≠ .str "args" →
        mapGet (callEnvelope env r packed) k = none) := by
  refine ⟨?_, ?_, ?_⟩
  · intro hn
    have hs := finishRequest_sends env { c with req := [] } r
    constructor
    · intro b hb
      have := hs.1 b (by simpa using hb) (by intro p hp; cases hp)
      simpa [mpClientCodec.WriteRequest, hn] using this
    · intro err hb
      have := hs.2 err (by simpa using hb) (by intro p hp; cases hp)
      simpa [mpClientCodec.WriteRequest, hn] using this
  · intro args hn hargs
    have hs := finishRequest_sends env { c with req := [(.str "args", .map args)] } r
    have hE : [(Key.str "args", Value.map args)] ++ callEnvelope env r none =
        callEnvelope env r (some args) := by
      simp [callEnvelope]
    have hk : ∀ p ∈ [(Key.str "args", Value.map args)],
        p.1 ≠ Key.str "service" ∧ p.1 ≠ .str "func" ∧ p.1 ≠ .str "session" := by
      intro p hp
      simp only [List.mem_singleton] at hp
      rw [hp]
      simp
    constructor
    · intro b hb
      have := hs.1 b (by simpa [hE] using hb) hk
      simpa [mpClientCodec.WriteRequest, hn, hargs, mapSet, hE] using this
    · intro err hb
      have := hs.2 err (by simpa [hE] using hb) hk
      simpa [mpClientCodec.WriteRequest, hn, hargs, mapSet, hE] using this
  · intro packed
    cases packed <;> cases hn : r.NoResp <;>
      simp +contextual [callEnvelope, mapGet, hn, Ne.symm]

/-- Witness of C15: the call `Add(Args{A: 1, B: 2})` with `Seq` 7, and the same header with a
nil body. -/
theorem C15_WriteRequest_envelope_witness :
    sendsEnvelope testEnv client0 addRequest .nil (callEnvelope testEnv addRequest none) ∧
    sendsEnvelope testEnv client0 addRequest (Args 1 2)
      (callEnvelope testEnv addRequest (some [(.int .int 1, .int .int 1),
        (.int .int 2, .int .int 2), (.str "n", .int .int 2)])) :=
  ⟨(C15_WriteRequest_envelope testEnv client0 addRequest .nil).1 rfl,
   (C15_WriteRequest_envelope testEnv client0 addRequest (Args 1 2)).2.1 _ rfl rfl⟩

/-- C16: when the body is not nil and `writeArg` refuses it, `WriteRequest` returns that
error ("must Exported") and writes nothing: the stream is what it was before the call (the
envelope under construction, reset at the start of the call, is empty). -/
theorem C16_WriteRequest_pack_failure (env : Env) (c : mpClientCodec) (r : Request)
    (body : Value) (e : String) (hnil : body.isNil = false)
    (hpack : writeArg env body = .error e) :
    mpClientCodec.WriteRequest env c r body = ({ c with req := [] }, some e) ∧
    (mpClientCodec.WriteRequest env c r body).1.rwc = c.rwc ∧
    e = "must Exported" := by
  have h : mpClientCodec.WriteRequest env c r body = ({ c with req := [] }, some e) := by
    simp [mpClientCodec.WriteRequest, hnil, hpack]
  exact ⟨h, by rw [h], writeArg_error env body e hpack⟩

/-- Witness of C16: the body `&&T{A: 1, b: 2}`. -/
theorem C16_WriteRequest_pack_failure_witness :
    mpClientCodec.WriteRequest testEnv client0 addRequest hiddenField =
      ({ client0 with req := [] }, some "must Exported") ∧
    (mpClientCodec.WriteRequest testEnv client0 addRequest hiddenField).1.rwc = client0.rwc ∧
    "must Exported" = "must Exported" :=
  C16_WriteRequest_pack_failure testEnv client0 addRequest hiddenField "must Exported" rfl rfl

theorem client_closeAll_closed (n : Nat) :
    ∀ c : mpClientCodec, c.closed = true →
      mpClientCodec.closeAll c n = (c, List.replicate n none) := by
  induction n with
  | zero => intro c _; rfl
  | succ n ih =>
    intro c hc
    simp [mpClientCodec.closeAll, mpClientCodec.Close, hc, ih c hc, List.replicate_succ]

theorem server_closeAll_closed (n : Nat) :
    ∀ c : mpServerCodec, c.closed = true →
      mpServerCodec.closeAll c n = (c, List.replicate n none) := by
  induction n with
  | zero => intro c _; rfl
  | succ n ih =>
    intro c hc
    simp [mpServerCodec.closeAll, mpServerCodec.Close, hc, ih c hc, List.replicate_succ]

/-- C17: for the client codec and for the server codec, starting from a codec that is not
closed, any number `n + 1` of `Close` calls in a row calls the stream's `Close` exactly once
(its counter goes up by one), the first call returns what the stream's `Close` returned, the
`n` later calls return no error, and the codec ends closed. -/
theorem C17_Close_once :
    (∀ (c : mpClientCodec) (n : Nat), c.closed = false →
      mpClientCodec.closeAll c (n + 1) =
        ({ c with closed := true, rwc := { c.rwc with closes := c.rwc.closes + 1 } },
          c.rwc.closeErr :: List.replicate n none)) ∧
    (∀ (c : mpServerCodec) (n : Nat), c.closed = false →
      mpServerCodec.closeAll c (n + 1) =
        ({ c with closed := true, rwc := { c.rwc with closes := c.rwc.closes + 1 } },
          c.rwc.closeErr :: List.replicate n none)) := by
  constructor
  · intro c n hc
    have h := client_closeAll_closed n
      { c with closed := true, rwc := { c.rwc with closes := c.rwc.closes + 1 } } rfl
    simp only [mpClientCodec.closeAll, mpClientCodec.Close, hc, Conn.Close]
    simp only [Bool.false_eq_true, if_false, h]
  · intro c n hc
    have h := server_closeAll_closed n
      { c with closed := true, rwc := { c.rwc with closes := c.rwc.closes + 1 } } rfl
    simp only [mpServerCodec.closeAll, mpServerCodec.Close, hc, Conn.Close]
    simp only [Bool.false_eq_true, if_false, h]

/-- Witness of C17: three `Close` calls on a client whose stream's `Close` fails, and on a
fresh server. -/
theorem C17_Close_once_witness :
    mpClientCodec.closeAll clientBadClose 3 =
      ({ clientBadClose with
          closed := true,
          rwc := { clientBadClose.rwc with closes := 1 } },
        [some "close failed", none, none]) ∧
    mpServerCodec.closeAll server0 3 =
      ({ server0 with closed := true, rwc := { server0.rwc with closes := 1 } },
        [none, none, none]) :=
  ⟨C17_Close_once.1 clientBadClose 2 rfl, C17_Close_once.2 server0 2 rfl⟩

/-! ## `readArg`: the keys it looks up -/

theorem readArgFields_skip (env : Env) (args : GoMap) (gs : List Field) (fs : List Field) :
    ∀ i : Nat,
      (∀ j : Nat, j < fs.length →
        mapGet args (Key.int .int8 (wrap .int8 ((i + j : Nat) + 1))) = none) →
      readArgFields env args (fs ++ gs) i =
        match readArgFields env args gs (i + fs.length) with
        | .ret gs' err => .ret (fs ++ gs') err
        | .panic msg => .panic msg := by
  induction fs with
  | nil =>
    intro i _
    simp only [List.nil_append, List.length_nil, Nat.add_zero]
    cases readArgFields env args gs i <;> rfl
  | cons f fs ih =>
    intro i h
    obtain ⟨name, ty, val⟩ := f
    have h0 := h 0 (by simp)
    simp only [Nat.add_zero] at h0
    have htail := ih (i + 1) (fun j hj => by
      have := h (j + 1) (by simpa using hj)
      have hidx : i + (j + 1) = i + 1 + j := by omega
      rw [hidx] at this
      exact this)
    have hlen : i + 1 + fs.length = i + (fs.length + 1) := by omega
    rw [hlen] at htail
    have hstep : readArgFields env args ((name, ty, val) :: (fs ++ gs)) i =
        match readArgFields env args (fs ++ gs) (i + 1) with
        | .panic msg => .panic msg
        | .ret rest' err => .ret ((name, ty, val) :: rest') err := by
      simp only [readArgFields, h0]
    rw [List.cons_append, hstep, htail, List.length_cons]
    cases readArgFields env args gs (i + (fs.length + 1)) <;> rfl

theorem wrap_int8 (x : Int) : wrap .int8 x = (x + 128) % 256 - 128 := by
  simp [wrap, IntKind.signed, IntKind.bits]

theorem convertArg_int8_into_int (env : Env) (old x : Int) (hx : IntKind.int.inRange x = true) :
    convertArg env false (.int .int) (.int .int old) (.int .int8 x) =
      .ret (.int .int x) none := by
  simp [convertArg, stripPtr, convertArgLoop, GoType.beq, convertible, convert, setField,
    wrap_of_inRange .int x hx]

/-- C18 (what the code does): `readArg` looks field `i` up under the key `int8(i)`, which
wraps.  In a destination struct of 128 `int` fields the last field is not filled from a key
128 of whatever integer type but from the key `int8(-128)`; in a destination struct of 257
`int` fields the first and the last field are both filled from the key `int8(1)`. -/
theorem C18_readArg_key_wraps (env : Env) (tn : String) (ft : List (String × GoType))
    (n : String) (name : String) (hexp : IsExported env name = true) :
    (∀ (fs : List Field) (k : IntKind) (v : Value), fs.length = 127 →
      readArg env (.ptr (.struct tn ft) (.struct n (fs ++ [(name, .int .int, .int .int 0)])))
          [(.int k 128, v), (.int .int8 (-128), .int .int8 5)] =
        .ret (.ptr (.struct tn ft) (.struct n (fs ++ [(name, .int .int, .int .int 5)]))) none) ∧
    (∀ (fs : List Field) (first : String), IsExported env first = true → fs.length = 255 →
      readArg env
          (.ptr (.struct tn ft)
            (.struct n ((first, .int .int, .int .int 0) ::
              (fs ++ [(name, .int .int, .int .int 0)]))))
          [(.int .int8 1, .int .int8 5)] =
        .ret
          (.ptr (.struct tn ft)
            (.struct n ((first, .int .int, .int .int 5) ::
              (fs ++ [(name, .int .int, .int .int 5)]))))
          none) := by
  constructor
  · intro fs k v hlen
    have hskip := readArgFields_skip env [(.int k 128, v), (.int .int8 (-128), .int .int8 5)]
      [(name, .int .int, .int .int 0)] fs 0 (by
        intro j hj
        apply mapGet_none
        intro p hp
        rw [wrap_int8]
        simp only [List.mem_cons, List.mem_singleton, List.not_mem_nil, or_false] at hp
        rcases hp with hp | hp <;> rw [hp] <;> simp only [ne_eq, Key.int.injEq, not_and] <;>
          intro _ <;> omega)
    have hlast : readArgFields env [(.int k 128, v), (.int .int8 (-128), .int .int8 5)]
        [(name, .int .int, .int .int 0)] (0 + fs.length) =
        .ret [(name, .int .int, .int .int 5)] none := by
      have hw : wrap .int8 (((0 + fs.length : Nat) : Int) + 1) = -128 := by
        rw [wrap_int8, hlen]
        rfl
      have hne : ¬ (k = IntKind.int8 ∧ (128 : Int) = -128) := by
        intro h
        exact absurd h.2 (by decide)
      simp only [readArgFields, hw, mapGet, Key.int.injEq, hne, if_false, and_self, if_true,
        hexp, Bool.not_true, convertArg_int8_into_int env 0 5 (by decide)]
    rw [hlast] at hskip
    simp only [readArg, hskip]
  · intro fs first hfirst hlen
    have hskip := readArgFields_skip env [(.int .int8 1, .int .int8 5)]
      [(name, .int .int, .int .int 0)] fs 1 (by
        intro j hj
        apply mapGet_none
        intro p hp
        rw [wrap_int8]
        simp only [List.mem_singleton] at hp
        rw [hp]
        simp only [ne_eq, Key.int.injEq, true_and]
        omega)
    have hlast : readArgFields env [(.int .int8 1, .int .int8 5)]
        [(name, .int .int, .int .int 0)] (1 + fs.length) =
        .ret [(name, .int .int, .int .int 5)] none := by
      have hw : wrap .int8 (((1 + fs.length : Nat) : Int) + 1) = 1 := by
        rw [wrap_int8, hlen]
        rfl
      simp only [readArgFields, hw, mapGet, if_true, hexp, Bool.not_true,
        convertArg_int8_into_int env 0 5 (by decide)]
    rw [hlast] at hskip
    have hw0 : wrap .int8 (((0 : Nat) : Int) + 1) = 1 := by
      rw [wrap_int8]
      rfl
    simp only [readArg, readArgFields, hw0, mapGet, if_true, hfirst, Bool.not_true,
      convertArg_int8_into_int env 0 5 (by decide), hskip]

/-- Witness of C18 (what the code does): a struct of 128 fields, `F1 .. F127` and `Last`,
read from a map that holds 9 under the key 128 (a `uint8`, as the decoder returns it) and 5
under the key `int8(-128)`; a struct of 257 fields read from a map that holds 5 under the key
`int8(1)`. -/
theorem C18_readArg_key_wraps_witness :
    readArg testEnv
        (.ptr (structTypeOf "Wide" (wideFields 127 ++ [("Last", .int .int, .int .int 0)]))
          (.struct "Wide" (wideFields 127 ++ [("Last", .int .int, .int .int 0)])))
        [(.int .uint8 128, .int .int8 9), (.int .int8 (-128), .int .int8 5)] =
      .ret
        (.ptr (structTypeOf "Wide" (wideFields 127 ++ [("Last", .int .int, .int .int 0)]))
          (.struct "Wide" (wideFields 127 ++ [("Last", .int .int, .int .int 5)])))
        none ∧
    readArg testEnv
        (.ptr
          (structTypeOf "Wide" (("First", .int .int, .int .int 0) ::
            (wideFields 255 ++ [("Last", .int .int, .int .int 0)])))
          (.struct "Wide" (("First", .int .int, .int .int 0) ::
            (wideFields 255 ++ [("Last", .int .int, .int .int 0)]))))
        [(.int .int8 1, .int .int8 5)] =
      .ret
        (.ptr
          (structTypeOf "Wide" (("First", .int .int, .int .int 0) ::
            (wideFields 255 ++ [("Last", .int .int, .int .int 0)])))
          (.struct "Wide" (("First", .int .int, .int .int 5) ::
            (wideFields 255 ++ [("Last", .int .int, .int .int 5)]))))
        none :=
  ⟨(C18_readArg_key_wraps testEnv "Wide" _ "Wide" "Last" rfl).1 (wideFields 127) .uint8
      (.int .int8 9) (by simp [wideFields]),
   (C18_readArg_key_wraps testEnv "Wide" _ "Wide" "Last" rfl).2 (wideFields 255) "First" rfl
      (by simp [wideFields])⟩

/-! ## `convertArg`: the coercion rule -/

theorem convertArgLoop_base (env : Env) (p : Bool) (ty : GoType) (val : Value)
    (hty : ∀ t, ty ≠ .ptr t) (argV : Option (GoType × Value)) :
    convertArgLoop env false p ty val argV =
      match argV with
      | none => .panic panicTypeOnZero
      | some (aty, aval) =>
        if ty.beq aty then .ret aval none
        else if convertible aty ty then .ret (convert aval ty) none
        else if p then
          match env.Marshal aval with
          | .error e => .ret val (some e)
          | .ok b => .ret (env.UnmarshalInto b ty val).1 (env.UnmarshalInto b ty val).2
        else .ret val none := by
  unfold convertArgLoop
  split
  · exact (hty _ rfl).elim
  · exact (hty _ rfl).elim
  · cases argV with
    | none => rfl
    | some a =>
      obtain ⟨aty, aval⟩ := a
      simp only [setField, Bool.false_eq_true, if_false]

theorem convertArgLoop_pointTo (env : Env) (ro : Bool) (ty : GoType) (val : Value)
    (argV : Option (GoType × Value)) (n : Nat) :
    ∀ p : Bool, convertArgLoop env ro p (behind n ty) (pointTo n ty val) argV =
      match convertArgLoop env ro (p || decide (n ≠ 0)) ty val argV with
      | .ret v err => .ret (pointTo n ty v) err
      | .panic msg => .panic msg := by
  induction n with
  | zero =>
    intro p
    simp only [behind, pointTo, ne_eq, not_true_eq_false, decide_False, Bool.or_false]
    cases convertArgLoop env ro p ty val argV <;> rfl
  | succ n ih =>
    intro p
    have hstep : convertArgLoop env ro p (behind (n + 1) ty) (pointTo (n + 1) ty val) argV =
        match convertArgLoop env ro true (behind n ty) (pointTo n ty val) argV with
        | .ret tgt' err => .ret (.ptr (behind n ty) tgt') err
        | .panic msg => .panic msg := by
      simp only [behind, pointTo]
      rw [convertArgLoop]
    rw [hstep, ih true]
    have hp : (p || decide (n + 1 ≠ 0)) = true := by simp
    rw [hp, Bool.true_or]
    cases convertArgLoop env ro true ty val argV <;> rfl

/-- C19 (what the code does): `convertArg` on a settable destination of type `ty` (not a
pointer type) holding `val`, reached through `n` non-nil pointers.  For a decoded value that
is not nil and, after its own pointers, has type `aty` and content `aval`, the rule is
followed in order: identical types store `aval`; otherwise a convertible `aty` stores the
converted value; otherwise, when `n` is not 0, `aval` is marshalled and unmarshalled into
the destination (the error of either step is returned); otherwise no error is returned and
the destination keeps `val`.  For a decoded value that is nil (or a nil pointer) none of
this happens: the call of `Type` on the zero `reflect.Value` panics; so it does, whatever
the decoded value, for a destination that is a nil pointer. -/
theorem C19_convertArg_rule (env : Env) (n : Nat) (ty : GoType) (val arg : Value)
    (hty : ∀ t, ty ≠ .ptr t) :
    (∀ aty aval, stripPtr arg = some (aty, aval) →
      convertArg env false (behind n ty) (pointTo n ty val) arg =
        if ty.beq aty then .ret (pointTo n ty aval) none
        else if convertible aty ty then .ret (pointTo n ty (convert aval ty)) none
        else if n ≠ 0 then
          match env.Marshal aval with
          | .error e => .ret (pointTo n ty val) (some e)
          | .ok b =>
            .ret (pointTo n ty (env.UnmarshalInto b ty val).1) (env.UnmarshalInto b ty val).2
        else .ret (pointTo n ty val) none) ∧
    (stripPtr arg = none →
      convertArg env false (behind n ty) (pointTo n ty val) arg = .panic panicTypeOnZero) ∧
    (∀ t, convertArg env false (.ptr t) (.nilptr t) arg = .panic panicTypeOnZero) := by
  refine ⟨?_, ?_, ?_⟩
  · intro aty aval harg
    simp only [convertArg, harg, convertArgLoop_pointTo, Bool.false_or,
      convertArgLoop_base env _ ty val hty]
    by_cases h1 : ty.beq aty = true
    · simp [h1]
    · by_cases h2 : convertible aty ty = true
      · simp [h1, h2]
      · by_cases h3 : n = 0
        · simp [h1, h2, h3]
        · simp only [h1, h2, h3, ne_eq, not_false_eq_true, decide_True, if_true, if_false,
            Bool.false_eq_true]
          cases env.Marshal aval <;> rfl
  · intro harg
    simp only [convertArg, harg, convertArgLoop_pointTo, convertArgLoop_base env _ ty val hty]
  · intro t
    simp [convertArg, convertArgLoop]

/-- Witness of C19 (what the code does): an `int` field holding 0 receives the decoded
`int8` 5 by conversion; the same field with the decoded value nil makes `convertArg` panic. -/
theorem C19_convertArg_rule_witness :
    convertArg testEnv false (.int .int) (.int .int 0) (.int .int8 5) =
      .ret (.int .int 5) none ∧
    convertArg testEnv false (.int .int) (.int .int 0) .nil = .panic panicTypeOnZero :=
  ⟨(C19_convertArg_rule testEnv 0 (.int .int) (.int .int 0) (.int .int8 5)
      (fun _ h => by cases h)).1 _ _ rfl,
   (C19_convertArg_rule testEnv 0 (.int .int) (.int .int 0) .nil
      (fun _ h => by cases h)).2.1 rfl⟩

/-! ## Header decoding: where it panics -/

theorem readOk_returns (c : mpClientCodec) (r : Response) :
    ∃ st err, mpClientCodec.readOk c r = .ret st err := by
  unfold mpClientCodec.readOk
  split
  · exact ⟨_, _, rfl⟩
  · split
    · split <;> exact ⟨_, _, rfl⟩
    · exact ⟨_, _, rfl⟩
  · exact ⟨_, _, rfl⟩

theorem readNames_returns (c : mpServerCodec) (r : Request) :
    ∃ st err, mpServerCodec.readNames c r = .ret st err := by
  unfold mpServerCodec.readNames
  split
  · exact ⟨_, _, rfl⟩
  · split <;> exact ⟨_, _, rfl⟩
  · exact ⟨_, _, rfl⟩

theorem server_readEnvelope_returns (env : Env) (c : mpServerCodec) (r : Request) (m : GoMap)
    (h : mapGet m (.str "session") ≠ some .nil) :
    ∃ st err, mpServerCodec.readEnvelope env c r (.map m) = .ret st err := by
  simp only [mpServerCodec.readEnvelope]
  cases hsess : mapGet m (.str "session") with
  | none => exact readNames_returns _ _
  | some sv =>
    cases ht : typeOf sv with
    | none =>
      rw [typeOf_eq_none] at ht
      rw [hsess, ht] at h
      exact absurd rfl h
    | some t =>
      by_cases hc : convertible t (.int env.seqKind) = true
      · simp only [ht, hc, if_true]
        exact readNames_returns _ _
      · simp only [ht, hc, if_false]
        exact ⟨_, _, rfl⟩

theorem client_readEnvelope_returns (env : Env) (c : mpClientCodec) (r : Response) (m : GoMap)
    (h : mapGet m (.str "session") ≠ some .nil) :
    ∃ st err, mpClientCodec.readEnvelope env c r (.map m) = .ret st err := by
  simp only [mpClientCodec.readEnvelope]
  cases hsess : mapGet m (.str "session") with
  | none => exact ⟨_, _, rfl⟩
  | some sv =>
    cases ht : typeOf sv with
    | none =>
      rw [typeOf_eq_none] at ht
      rw [hsess, ht] at h
      exact absurd rfl h
    | some t =>
      by_cases hc : convertible t (.int env.seqKind) = true
      · simp only [ht, hc, if_true]
        exact readOk_returns _ _
      · simp only [ht, hc, if_false]
        exact ⟨_, _, rfl⟩

/-- C20 (what the code does): with a frame read and decoded to the value `v`,
`ReadRequestHeader` and `ReadResponseHeader` each panic in two situations and return in
every other one.  When `v` is not a map the type assertion to
`map[interface{}]interface{}` panics; when `v` is a map that holds nil under `session`, the
call of `ConvertibleTo` on the nil `reflect.Type` panics; when `v` is a map whose `session`
is absent or not nil, the call returns (success or an error). -/
theorem C20_header_decoding_panics (env : Env) :
    (∀ (c : mpServerCodec) (r : Request) (rwc1 : Conn) (b : List Byte) (v : Value),
      readFrame c.rwc = (rwc1, .ok b) → env.Unmarshal b = .ok v →
      ((∀ m, v ≠ .map m) → mpServerCodec.ReadRequestHeader env c r = .panic panicAssert) ∧
      (∀ m, v = .map m → mapGet m (.str "session") = some .nil →
        mpServerCodec.ReadRequestHeader env c r = .panic panicNilType) ∧
      (∀ m, v = .map m → mapGet m (.str "session") ≠ some .nil →
        ∃ st err, mpServerCodec.ReadRequestHeader env c r = .ret st err)) ∧
    (∀ (c : mpClientCodec) (r : Response) (rwc1 : Conn) (b : List Byte) (v : Value),
      readFrame c.rwc = (rwc1, .ok b) → env.Unmarshal b = .ok v →
      ((∀ m, v ≠ .map m) → mpClientCodec.ReadResponseHeader env c r = .panic panicAssert) ∧
      (∀ m, v = .map m → mapGet m (.str "session") = some .nil →
        mpClientCodec.ReadResponseHeader env c r = .panic panicNilType) ∧
      (∀ m, v = .map m → mapGet m (.str "session") ≠ some .nil →
        ∃ st err, mpClientCodec.ReadResponseHeader env c r = .ret st err)) := by
  constructor
  · intro c r rwc1 b v hframe hdec
    have hunfold : mpServerCodec.ReadRequestHeader env c r =
        mpServerCodec.readEnvelope env { c with rwc := rwc1 } r v := by
      simp only [mpServerCodec.ReadRequestHeader, hframe, hdec]
    rw [hunfold]
    refine ⟨?_, ?_, ?_⟩
    · intro hv
      cases v <;> first | rfl | exact absurd rfl (hv _)
    · intro m hm hs
      subst hm
      simp [mpServerCodec.readEnvelope, hs, typeOf]
    · intro m hm hs
      subst hm
      exact server_readEnvelope_returns env _ r m hs
  · intro c r rwc1 b v hframe hdec
    have hunfold : mpClientCodec.ReadResponseHeader env c r =
        mpClientCodec.readEnvelope env { c with rwc := rwc1 } r v := by
      simp only [mpClientCodec.ReadResponseHeader, hframe, hdec]
    rw [hunfold]
    refine ⟨?_, ?_, ?_⟩
    · intro hv
      cases v <;> first | rfl | exact absurd rfl (hv _)
    · intro m hm hs
      subst hm
      simp [mpClientCodec.readEnvelope, hs, typeOf]
    · intro m hm hs
      subst hm
      exact client_readEnvelope_returns env _ r m hs

/-- Witness of C20 (what the code does): a call frame whose payload is the integer 7, a call
whose `session` is nil, a result frame whose payload is nil, and a result whose `session` is
nil. -/
theorem C20_header_decoding_panics_witness :
    mpServerCodec.ReadRequestHeader testEnv srvScalar request0 = .panic panicAssert ∧
    mpServerCodec.ReadRequestHeader testEnv srvNil request0 = .panic panicNilType ∧
    mpClientCodec.ReadResponseHeader testEnv cliScalar response0 = .panic panicAssert ∧
    mpClientCodec.ReadResponseHeader testEnv cliNil response0 = .panic panicNilType :=
  ⟨((C20_header_decoding_panics testEnv).1 srvScalar request0 _ _ _ rfl rfl).1
      (fun _ h => by cases h),
   ((C20_header_decoding_panics testEnv).1 srvNil request0 _ _ _ rfl rfl).2.1 _ rfl rfl,
   ((C20_header_decoding_panics testEnv).2 cliScalar response0 _ _ _ rfl rfl).1
      (fun _ h => by cases h),
   ((C20_header_decoding_panics testEnv).2 cliNil response0 _ _ _ rfl rfl).2.1 _ rfl rfl⟩

/-! ## `readArg` after `writeArg`: the round trip -/

end rpc
